import Mathlib

/-!
# Field selection and tag resolution of the constructor generator

A shallow embedding of `types.go`, `parser.go` and `main.go` and a model of the
generator, followed by the properties proved about them.

Go strings are modelled as lists of Unicode code points (`List Char`).  The
functions of Go's `strings` package that the parser calls are modelled in the
namespace `strings` from their documented behaviour; every pattern the parser
passes to them is ASCII, for which matching on code points and matching on
UTF-8 bytes agree.  A tag is taken to be valid UTF-8, as the text of a Go
source file is.

A function of the parser that can end without a result returns in `Except`
over `Failure`, which tells a returned error from a panic.
-/

/-- A Go string, as its sequence of code points. -/
abbrev GoString := List Char

namespace unicode

/-- Go's `unicode.IsSpace`: the Latin-1 spaces `\t \n \v \f \r`, space, U+0085,
U+00A0, and the other code points with the White_Space property. -/
def IsSpace (r : Char) : Bool :=
  let n := r.toNat
  (9 ≤ n && n ≤ 13) || n == 0x20 || n == 0x85 || n == 0xA0 || n == 0x1680 ||
    (0x2000 ≤ n && n ≤ 0x200A) || n == 0x2028 || n == 0x2029 || n == 0x202F ||
    n == 0x205F || n == 0x3000

end unicode

namespace strings

/-- Scanning loop of `strings.Fields`: `cur` is the field being read, kept in
reverse; a white space character closes a non-empty field. -/
def fieldsAux : List Char → List Char → List GoString
  | [], cur => if cur.isEmpty then [] else [cur.reverse]
  | c :: cs, cur =>
    if unicode.IsSpace c then
      (if cur.isEmpty then fieldsAux cs [] else cur.reverse :: fieldsAux cs [])
    else fieldsAux cs (c :: cur)

/-- Go's `strings.Fields`: splits around each run of one or more white space
characters; the result holds no empty string. -/
def Fields (s : GoString) : List GoString := fieldsAux s []

/-- Go's `strings.TrimLeft`: drops the leading code points contained in `cutset`. -/
def TrimLeft (s cutset : GoString) : GoString := s.dropWhile (fun c => cutset.contains c)

/-- Go's `strings.TrimRight`: drops the trailing code points contained in `cutset`. -/
def TrimRight (s cutset : GoString) : GoString :=
  (s.reverse.dropWhile (fun c => cutset.contains c)).reverse

/-- Go's `strings.Trim`: drops leading and trailing code points contained in `cutset`. -/
def Trim (s cutset : GoString) : GoString := TrimLeft (TrimRight s cutset) cutset

/-- Go's `strings.HasPrefix`. -/
def HasPrefix (s pre : GoString) : Bool := pre.isPrefixOf s

/-- Go's `strings.TrimPrefix`: `s` without the leading `pre`, or `s` itself
when `s` does not start with `pre`. -/
def TrimPrefix (s pre : GoString) : GoString :=
  if HasPrefix s pre then s.drop pre.length else s

/-- Go's `strings.Contains`: `substr` occurs in `s` at some position. -/
def Contains : GoString → GoString → Bool
  | [], substr => substr.isPrefixOf []
  | c :: cs, substr => substr.isPrefixOf (c :: cs) || Contains cs substr

end strings

/-- The struct `FieldInfo` of `types.go`. -/
structure FieldInfo where
  Name : GoString
  /-- The Go field `Type`; `Type` is reserved in Lean. -/
  Type_ : GoString
  Tag : GoString
  Exported : Bool
  Skip : Bool
  SkipGetter : Bool
  SkipSetter : Bool
  deriving DecidableEq, Repr

/-- The struct `StructInfo` of `types.go`. -/
structure StructInfo where
  Name : GoString
  Fields : List FieldInfo
  PackageName : GoString
  deriving DecidableEq, Repr

/-- The backtick, the cutset of the first `strings.Trim` of `parseFieldSkipTags`. -/
def backtick : GoString := [Char.ofNat 96]

/-- The double quote, the cutset of the `strings.Trim` applied to tag values. -/
def dquote : GoString := [Char.ofNat 34]

/-- The key `constructor:`. -/
def keyConstructor : GoString := "constructor:".toList

/-- The legacy key `newc:`. -/
def keyNewc : GoString := "newc:".toList

/-- The legacy key `gonstructor:`. -/
def keyGonstructor : GoString := "gonstructor:".toList

/-- The value of `parts` in `parseFieldSkipTags`: the white space separated
tokens of the tag once its leading and trailing backticks are removed. -/
def tagParts (tag : GoString) : List GoString :=
  strings.Fields (strings.Trim tag backtick)

/-- One iteration of the `for _, part := range parts` loop of
`parseFieldSkipTags`, on the state `(skip, skipGetter, skipSetter)`: the three
`if` statements run one after the other. -/
def skipTagsStep (st : Bool × Bool × Bool) (part : GoString) : Bool × Bool × Bool :=
  let st1 : Bool × Bool × Bool :=
    if strings.HasPrefix part keyConstructor then
      let tagValue := strings.Trim (strings.TrimPrefix part keyConstructor) dquote
      if tagValue = "-".toList then (true, st.2.1, st.2.2)
      else if strings.Contains tagValue "getter:false".toList then (st.1, true, st.2.2)
      else if strings.Contains tagValue "setter:false".toList then (st.1, st.2.1, true)
      else st
    else st
  let st2 : Bool × Bool × Bool :=
    if strings.HasPrefix part keyNewc then
      let tagValue := strings.Trim (strings.TrimPrefix part keyNewc) dquote
      if tagValue = "-".toList then (true, st1.2.1, st1.2.2) else st1
    else st1
  if strings.HasPrefix part keyGonstructor then
    let tagValue := strings.Trim (strings.TrimPrefix part keyGonstructor) dquote
    if tagValue = "-".toList then (true, st2.2.1, st2.2.2) else st2
  else st2

/-- The function `parseFieldSkipTags` of `parser.go`; the result is
`(skip, skipGetter, skipSetter)`. -/
def parseFieldSkipTags (tag : GoString) : Bool × Bool × Bool :=
  if tag = [] then (false, false, false)
  else (tagParts tag).foldl skipTagsStep (false, false, false)

/-- The function `shouldSkipField` of `parser.go`. -/
def shouldSkipField (tag : GoString) : Bool :=
  match parseFieldSkipTags tag with
  | (skip, _, _) => skip

/-- The method `GetFieldsForConstructor` of `parser.go`: the loop appends each
selected field to `result`, which starts empty. -/
def StructInfo.GetFieldsForConstructor (s : StructInfo) : List FieldInfo :=
  s.Fields.foldl
    (fun result field => if !field.Skip && !field.SkipSetter then result ++ [field] else result) []

/-- The method `GetFieldsForGetter` of `parser.go`. -/
def StructInfo.GetFieldsForGetter (s : StructInfo) : List FieldInfo :=
  s.Fields.foldl
    (fun result field =>
      if !field.Skip && !field.SkipGetter && !field.Exported then result ++ [field] else result) []

/-- The `FieldInfo` that `ParseStruct` appends for a field name: the three
skip flags are those `parseFieldSkipTags` returns for the raw tag. -/
def newFieldInfo (name fieldType tag : GoString) (exported : Bool) : FieldInfo :=
  match parseFieldSkipTags tag with
  | (skip, skipGetter, skipSetter) =>
    { Name := name, Type_ := fieldType, Tag := tag, Exported := exported,
      Skip := skip, SkipGetter := skipGetter, SkipSetter := skipSetter }

/-- The value `tagValue` the parser reads in `part` after `key`. -/
def tagValueOf (part key : GoString) : GoString :=
  strings.Trim (strings.TrimPrefix part key) dquote

/-- The token `part` makes one pass of the loop set `skip`. -/
def setsSkip (part : GoString) : Bool :=
  (strings.HasPrefix part keyConstructor && decide (tagValueOf part keyConstructor = "-".toList))
    || (strings.HasPrefix part keyNewc && decide (tagValueOf part keyNewc = "-".toList))
    || (strings.HasPrefix part keyGonstructor
          && decide (tagValueOf part keyGonstructor = "-".toList))

/-- The token `part` makes one pass of the loop set `skipGetter`. -/
def setsSkipGetter (part : GoString) : Bool :=
  strings.HasPrefix part keyConstructor
    && !decide (tagValueOf part keyConstructor = "-".toList)
    && strings.Contains (tagValueOf part keyConstructor) "getter:false".toList

/-- The token `part` makes one pass of the loop set `skipSetter`. -/
def setsSkipSetter (part : GoString) : Bool :=
  strings.HasPrefix part keyConstructor
    && !decide (tagValueOf part keyConstructor = "-".toList)
    && !strings.Contains (tagValueOf part keyConstructor) "getter:false".toList
    && strings.Contains (tagValueOf part keyConstructor) "setter:false".toList

/-- The raw text of a tag written as a Go raw string literal: `body` between
two backticks, as `ParseStruct` reads it from the syntax tree. -/
def rawTag (body : GoString) : GoString := backtick ++ body ++ backtick

/-- The struct `Repository` of `examples/mixed/repository.go`, each field built
as `ParseStruct` builds it from its name, type, raw tag and visibility. -/
def repositoryInfo : StructInfo :=
  StructInfo.mk "Repository".toList
    [newFieldInfo "dsn".toList "string".toList [] false,
     newFieldInfo "maxConns".toList "int".toList [] false,
     newFieldInfo "idleTimeout".toList "time.Duration".toList [] false,
     newFieldInfo "password".toList "string".toList
       (rawTag "constructor:\"getter:false\"".toList) false,
     newFieldInfo "connCount".toList "int".toList
       (rawTag "constructor:\"setter:false\"".toList) false,
     newFieldInfo "internal".toList "string".toList (rawTag "constructor:\"-\"".toList) false]
    "mixed".toList

/-- The struct of `TestStructInfoGetFieldsForGetter`, with every flag of the
skipped field set. -/
def testStructInfo : StructInfo :=
  StructInfo.mk "Test".toList
    [FieldInfo.mk "field1".toList [] [] false false false false,
     FieldInfo.mk "field2".toList [] [] true true true true,
     FieldInfo.mk "field5".toList [] [] false false false false]
    []

/-- Two fields that differ at most in their `Exported` and `SkipGetter` values. -/
def sameButAccess (f g : FieldInfo) : Prop :=
  f.Name = g.Name ∧ f.Type_ = g.Type_ ∧ f.Tag = g.Tag ∧ f.Skip = g.Skip
    ∧ f.SkipSetter = g.SkipSetter

/-- A struct with one exported field tagged `constructor:"setter:false"`, built
as `ParseStruct` builds it. -/
def exportedCounterInfo : StructInfo :=
  StructInfo.mk "Stats".toList
    [newFieldInfo "Count".toList "int".toList (rawTag "constructor:\"setter:false\"".toList) true]
    "stats".toList

/-- The struct `Database` of `examples/builder/database.go` restricted to its
tagged fields, built as `ParseStruct` builds them. -/
def databaseInfo : StructInfo :=
  StructInfo.mk "Database".toList
    [newFieldInfo "password".toList "string".toList
       (rawTag "constructor:\"getter:false\"".toList) false,
     newFieldInfo "poolSize".toList "int".toList
       (rawTag "constructor:\"setter:false\"".toList) false]
    "builder".toList

/-- The struct `databaseInfo` with the visibility of `password` and the getter
flag of `poolSize` changed. -/
def databaseInfoVariant : StructInfo :=
  StructInfo.mk "Database".toList
    [FieldInfo.mk "password".toList "string".toList
       (rawTag "constructor:\"getter:false\"".toList) true false true false,
     FieldInfo.mk "poolSize".toList "int".toList
       (rawTag "constructor:\"setter:false\"".toList) false false true true]
    "builder".toList

/-! ### The syntax tree and `ParseStruct` -/

namespace unicode

/-- The case tables of Go's `unicode` package that the program consults; they
are taken as a parameter. -/
structure CaseTables where
  IsUpper : Char → Bool
  ToUpper : Char → Char
  ToLower : Char → Char

/-- The restriction of the case tables to the ASCII letters, used for examples
on ASCII identifiers. -/
def asciiTables : CaseTables :=
  CaseTables.mk Char.isUpper Char.toUpper Char.toLower

end unicode

/-- How a Go call ends when it gives no result: it returns an error with the
message `msg`, or it panics with the message `msg`. -/
inductive Failure where
  | err (msg : GoString)
  | panic (msg : GoString)
  deriving DecidableEq, Repr

/-- The message of Go's run-time panic for a call through a nil value. -/
def nilDereference : GoString :=
  "runtime error: invalid memory address or nil pointer dereference".toList

namespace ast

mutual
/-- The nodes of `go/ast` that `exprToString` tells apart; `Other` is a node of
any other Go type and carries the name of that type. The element of an
`Ellipsis` is nil for the length of an array type written `[...]T`. -/
inductive Expr where
  | Ident (Name : GoString)
  | StarExpr (X : Expr)
  | ArrayType (Len : Option Expr) (Elt : Expr)
  | MapType (Key Value : Expr)
  | ChanType (Dir : Nat) (Value : Expr)
  | SelectorExpr (X : Expr) (Sel : GoString)
  | InterfaceType (Methods : List Field)
  | FuncType (Params Results : List Field)
  | StructType (Fields : List Field)
  | Ellipsis (Elt : Option Expr)
  | BasicLit (Value : GoString)
  | Other (TypeName : GoString)
/-- The node `ast.Field`: the declared names, the type expression and the raw
text of the tag literal when there is one. -/
inductive Field where
  | mk (Names : List GoString) (Type_ : Expr) (Tag : Option GoString)
end

/-- The value `ast.SEND` of `ast.ChanDir`. -/
def SEND : Nat := 1

/-- The value `ast.RECV` of `ast.ChanDir`. -/
def RECV : Nat := 2

/-- The names of a field. -/
def Field.Names : Field → List GoString
  | Field.mk names _ _ => names

/-- The type expression of a field. -/
def Field.Type_ : Field → Expr
  | Field.mk _ t _ => t

/-- The tag literal of a field. -/
def Field.Tag : Field → Option GoString
  | Field.mk _ _ tag => tag

/-- A node of the file as `ast.Inspect` walks it: a `TypeSpec` with its name
and type, or a node of another kind; `children` are the nodes below it, in the
order of the walk. -/
inductive Node where
  | TypeSpec (Name : GoString) (Type_ : Expr) (children : List Node)
  | Other (children : List Node)

/-- The node `ast.File`: the package name and the nodes below the file. -/
structure File where
  Name : GoString
  children : List Node

/-- Go's `ast.IsExported`: the first code point of the name is upper case; the
empty name decodes to U+FFFD. -/
def IsExported (u : unicode.CaseTables) (name : GoString) : Bool :=
  match name with
  | [] => u.IsUpper (Char.ofNat 0xFFFD)
  | c :: _ => u.IsUpper c

end ast

/-- The function `exprToString` of `parser.go`; the result is the returned
string, or the panic in which the call ends. For an `Ellipsis` without element
the recursive call receives the nil expression, takes the `default` branch and
panics in `reflect.TypeOf(expr).Elem()`, as `reflect.TypeOf(nil)` is nil. -/
def exprToString : ast.Expr → Except Failure GoString
  | ast.Expr.Ident name => Except.ok name
  | ast.Expr.StarExpr x => (exprToString x).map (fun s => "*".toList ++ s)
  | ast.Expr.ArrayType none elt => (exprToString elt).map (fun s => "[]".toList ++ s)
  | ast.Expr.ArrayType (some len) elt =>
    (exprToString len).bind
      (fun l => (exprToString elt).map (fun s => "[".toList ++ l ++ "]".toList ++ s))
  | ast.Expr.MapType key value =>
    (exprToString key).bind
      (fun k => (exprToString value).map (fun v => "map[".toList ++ k ++ "]".toList ++ v))
  | ast.Expr.ChanType dir value =>
    if dir = ast.SEND then (exprToString value).map (fun s => "chan<- ".toList ++ s)
    else if dir = ast.RECV then (exprToString value).map (fun s => "<-chan ".toList ++ s)
    else (exprToString value).map (fun s => "chan ".toList ++ s)
  | ast.Expr.SelectorExpr x sel => (exprToString x).map (fun s => s ++ ".".toList ++ sel)
  | ast.Expr.InterfaceType methods =>
    if methods.length = 0 then Except.ok "interface\x7b\x7d".toList
    else Except.ok "interface\x7b...\x7d".toList
  | ast.Expr.FuncType _ _ => Except.ok "func(...)".toList
  | ast.Expr.StructType _ => Except.ok "struct\x7b...\x7d".toList
  | ast.Expr.Ellipsis none => Except.error (Failure.panic nilDereference)
  | ast.Expr.Ellipsis (some elt) => (exprToString elt).map (fun s => "...".toList ++ s)
  | ast.Expr.BasicLit value => Except.ok value
  | ast.Expr.Other typeName => Except.ok typeName

/-- The body of the loop `for _, field := range structType.Fields.List` of
`ParseStruct`: the entries appended to `Fields` for one field, or the panic of
`exprToString`. -/
def appendField (u : unicode.CaseTables) (fields : List FieldInfo) (field : ast.Field) :
    Except Failure (List FieldInfo) :=
  match exprToString field.Type_ with
  | Except.error failure => Except.error failure
  | Except.ok fieldType =>
    let tag : GoString :=
      match field.Tag with
      | some value => value
      | none => []
    if field.Names.length = 0 then
      Except.ok (fields ++ [newFieldInfo fieldType fieldType tag true])
    else
      Except.ok
        (field.Names.foldl
          (fun acc name => acc ++ [newFieldInfo name fieldType tag (ast.IsExported u name)])
          fields)

/-- The loop `for _, field := range structType.Fields.List` of `ParseStruct`,
from the entries recorded so far; a panic ends it. -/
def appendFields (u : unicode.CaseTables) :
    List FieldInfo → List ast.Field → Except Failure (List FieldInfo)
  | fields, [] => Except.ok fields
  | fields, field :: rest =>
    match appendField u fields field with
    | Except.error failure => Except.error failure
    | Except.ok recorded => appendFields u recorded rest

/-- The `StructInfo` that the callback of `ParseStruct` builds for a struct
type, or the panic in which the callback ends. -/
def newStructInfo (u : unicode.CaseTables) (packageName structName : GoString)
    (fields : List ast.Field) : Except Failure StructInfo :=
  match appendFields u [] fields with
  | Except.error failure => Except.error failure
  | Except.ok recorded => Except.ok (StructInfo.mk structName recorded packageName)

mutual
/-- The walk `ast.Inspect` with the callback of `ParseStruct`, as a function on
the captured variable `structInfo`: a `TypeSpec` with the requested name and a
struct type assigns it and its children are not walked; below every other node
the walk goes on. A panic of the callback ends the walk. -/
def inspectNode (u : unicode.CaseTables) (packageName structName : GoString) :
    ast.Node → Option StructInfo → Except Failure (Option StructInfo)
  | ast.Node.TypeSpec name type children, structInfo =>
    if name ≠ structName then inspectNodes u packageName structName children structInfo
    else
      match type with
      | ast.Expr.StructType fields =>
        match newStructInfo u packageName structName fields with
        | Except.error failure => Except.error failure
        | Except.ok built => Except.ok (some built)
      | _ => inspectNodes u packageName structName children structInfo
  | ast.Node.Other children, structInfo =>
    inspectNodes u packageName structName children structInfo
/-- The walk over the children of a node, one after the other. -/
def inspectNodes (u : unicode.CaseTables) (packageName structName : GoString) :
    List ast.Node → Option StructInfo → Except Failure (Option StructInfo)
  | [], structInfo => Except.ok structInfo
  | n :: ns, structInfo =>
    match inspectNode u packageName structName n structInfo with
    | Except.error failure => Except.error failure
    | Except.ok captured => inspectNodes u packageName structName ns captured
end

/-- The function `ParseStruct` of `parser.go`; `parseFile` stands for
`parser.ParseFile`, which reads and parses the file of that name. The result
is the returned `StructInfo`, the returned error, or the panic in which the
call ends. -/
def ParseStruct (u : unicode.CaseTables) (parseFile : GoString → Except GoString ast.File)
    (filename structName : GoString) : Except Failure StructInfo :=
  match parseFile filename with
  | Except.error err => Except.error (Failure.err ("failed to parse file: ".toList ++ err))
  | Except.ok node =>
    match inspectNodes u node.Name structName node.children none with
    | Except.error failure => Except.error failure
    | Except.ok none =>
      Except.error
        (Failure.err
          ("struct ".toList ++ structName ++ " not found in file ".toList ++ filename))
    | Except.ok (some structInfo) => Except.ok structInfo

mutual
/-- The field lists of the struct type declarations named `structName` at or
below a node, in the order of the walk. -/
def structDecls (structName : GoString) : ast.Node → List (List ast.Field)
  | ast.Node.TypeSpec name type children =>
    (if name = structName then
      match type with
      | ast.Expr.StructType fields => [fields]
      | _ => []
    else []) ++ structDeclsOfNodes structName children
  | ast.Node.Other children => structDeclsOfNodes structName children
/-- The field lists of the struct type declarations named `structName` at or
below the nodes of a list. -/
def structDeclsOfNodes (structName : GoString) : List ast.Node → List (List ast.Field)
  | [] => []
  | n :: ns => structDecls structName n ++ structDeclsOfNodes structName ns
end

/-- The spelling of a type expression: the string that `exprToString` returns
for it, and the empty string when that call panics. -/
def spelledType (type : ast.Expr) : GoString :=
  match exprToString type with
  | Except.ok spelling => spelling
  | Except.error _ => []

/-- The entries of `Fields` that the claim describes for one declared field:
one per declared name, all with the spelled type and the raw tag, and a single
entry named after its type for an embedded field. -/
def fieldEntries (u : unicode.CaseTables) (field : ast.Field) : List FieldInfo :=
  if field.Names = [] then
    [newFieldInfo (spelledType field.Type_) (spelledType field.Type_) (field.Tag.getD []) true]
  else
    field.Names.map
      (fun name =>
        newFieldInfo name (spelledType field.Type_) (field.Tag.getD []) (ast.IsExported u name))

/-- The type expressions of the claim on spelling: identifiers, pointers,
slices, arrays with a literal length, maps, the three kinds of channel,
qualified names and the empty interface. -/
inductive TypeSyntax where
  | ident (name : GoString)
  | pointer (x : TypeSyntax)
  | slice (elt : TypeSyntax)
  | array (len : GoString) (elt : TypeSyntax)
  | map (key value : TypeSyntax)
  | chan (value : TypeSyntax)
  | chanSend (value : TypeSyntax)
  | chanRecv (value : TypeSyntax)
  | qualified (x : TypeSyntax) (sel : GoString)
  | emptyInterface

/-- The Go source spelling of a type expression, as the claim composes it. -/
def TypeSyntax.spelling : TypeSyntax → GoString
  | TypeSyntax.ident name => name
  | TypeSyntax.pointer x => "*".toList ++ x.spelling
  | TypeSyntax.slice elt => "[]".toList ++ elt.spelling
  | TypeSyntax.array len elt => "[".toList ++ len ++ "]".toList ++ elt.spelling
  | TypeSyntax.map key value => "map[".toList ++ key.spelling ++ "]".toList ++ value.spelling
  | TypeSyntax.chan value => "chan ".toList ++ value.spelling
  | TypeSyntax.chanSend value => "chan<- ".toList ++ value.spelling
  | TypeSyntax.chanRecv value => "<-chan ".toList ++ value.spelling
  | TypeSyntax.qualified x sel => x.spelling ++ ".".toList ++ sel
  | TypeSyntax.emptyInterface => "interface\x7b\x7d".toList

/-- The syntax tree that Go's parser builds for a type expression; a channel
without arrow has both direction bits set. -/
def TypeSyntax.toExpr : TypeSyntax → ast.Expr
  | TypeSyntax.ident name => ast.Expr.Ident name
  | TypeSyntax.pointer x => ast.Expr.StarExpr x.toExpr
  | TypeSyntax.slice elt => ast.Expr.ArrayType none elt.toExpr
  | TypeSyntax.array len elt => ast.Expr.ArrayType (some (ast.Expr.BasicLit len)) elt.toExpr
  | TypeSyntax.map key value => ast.Expr.MapType key.toExpr value.toExpr
  | TypeSyntax.chan value => ast.Expr.ChanType (ast.SEND ||| ast.RECV) value.toExpr
  | TypeSyntax.chanSend value => ast.Expr.ChanType ast.SEND value.toExpr
  | TypeSyntax.chanRecv value => ast.Expr.ChanType ast.RECV value.toExpr
  | TypeSyntax.qualified x sel => ast.Expr.SelectorExpr x.toExpr sel
  | TypeSyntax.emptyInterface => ast.Expr.InterfaceType []

/-- A file `package test` declaring `type Celsius float64`, then
`type TestStruct struct` with the fields `name, alias string`, a tagged `age int`
and an embedded `*sync.Mutex`. -/
def sampleFile : ast.File :=
  ast.File.mk "test".toList
    [ast.Node.Other
       [ast.Node.TypeSpec "Celsius".toList (ast.Expr.Ident "float64".toList) []],
     ast.Node.Other
       [ast.Node.TypeSpec "TestStruct".toList
          (ast.Expr.StructType
            [ast.Field.mk ["name".toList, "alias".toList] (ast.Expr.Ident "string".toList) none,
             ast.Field.mk ["age".toList] (ast.Expr.Ident "int".toList)
               (some (rawTag "json:\"age\"".toList)),
             ast.Field.mk []
               (ast.Expr.StarExpr
                 (ast.Expr.SelectorExpr (ast.Expr.Ident "sync".toList) "Mutex".toList))
               none])
          []]]

/-- A file `package p` declaring `type T struct` with the one field
`a *[...]int`; Go's parser records the length `...` of the array type as an
`Ellipsis` without element. -/
def openArrayFile : ast.File :=
  ast.File.mk "p".toList
    [ast.Node.Other
       [ast.Node.TypeSpec "T".toList
          (ast.Expr.StructType
            [ast.Field.mk ["a".toList]
               (ast.Expr.StarExpr
                 (ast.Expr.ArrayType (some (ast.Expr.Ellipsis none))
                   (ast.Expr.Ident "int".toList)))
               none])
          []]]

/-- A file system holding `openArrayFile` under the name `p.go` and nothing else. -/
def openArrayParseFile (filename : GoString) : Except GoString ast.File :=
  if filename = "p.go".toList then Except.ok openArrayFile
  else Except.error "open: no such file".toList

/-- A file system holding `sampleFile` under the name `test.go` and nothing else. -/
def sampleParseFile (filename : GoString) : Except GoString ast.File :=
  if filename = "test.go".toList then Except.ok sampleFile
  else Except.error "open: no such file".toList

/-! ### The generator

The file `generator.go` is not part of the sources at hand; its tests, its
callers and the types it consumes are.  The definitions of this section model
it from the specification. -/

/-- The struct `GeneratorConfig` of `types.go`. -/
structure GeneratorConfig where
  StructName : GoString
  ConstructorTypes : List GoString
  OutputFile : GoString
  InitFunc : GoString
  ReturnValue : Bool
  SetterPrefix : GoString
  WithGetter : Bool

/-- Modelled from the spec: `toLowerCamelCase` of `generator.go`, which is
missing; it lower-cases the first rune and leaves the remainder untouched, and
maps the empty string to the empty string. -/
def toLowerCamelCase (u : unicode.CaseTables) (s : GoString) : GoString :=
  match s with
  | [] => []
  | c :: rest => u.ToLower c :: rest

/-- Modelled from the spec: `toUpperCamelCase` of `generator.go`, which is
missing; it upper-cases the first rune and leaves the remainder untouched, and
maps the empty string to the empty string. -/
def toUpperCamelCase (u : unicode.CaseTables) (s : GoString) : GoString :=
  match s with
  | [] => []
  | c :: rest => u.ToUpper c :: rest

/-- A name with its type in emitted code: a parameter, a receiver or a field
of an emitted struct. -/
structure Param where
  Name : GoString
  Type_ : GoString
  deriving DecidableEq, Repr

/-- A statement of an emitted function body. -/
inductive Stmt where
  /-- The statement `v := &T{f1: e1, f2: e2}` with `T` and the list of `(f, e)`. -/
  | newValue (typeName : GoString) (inits : List (GoString × GoString))
  /-- The loop `for _, opt := range opts { opt(v) }`. -/
  | applyOptions
  /-- The call `v.m()` of the init hook `m`. -/
  | callInit (method : GoString)
  /-- The assignment `target = value`. -/
  | assign (target value : GoString)
  /-- The statement `return v`, or `return *v` when the instance is returned by value. -/
  | returnInstance (byValue : Bool)
  /-- The statement `return e`. -/
  | returnExpr (expr : GoString)
  /-- The statement `return func(v *T) { v.f = value }` with `T`, `f` and `value`. -/
  | returnOption (typeName field value : GoString)
  deriving DecidableEq, Repr

/-- A declaration of the emitted source text. -/
inductive Decl where
  /-- A function, or a method when `recv` is given. -/
  | funcDecl (recv : Option Param) (name : GoString) (params : List Param) (result : GoString)
      (body : List Stmt)
  /-- The declaration `type name struct` with its fields. -/
  | structDecl (name : GoString) (fields : List Param)
  /-- The declaration `type name func(argType)`. -/
  | funcTypeDecl (name argType : GoString)
  deriving DecidableEq, Repr

/-- Modelled from the spec: the constructor parameter of a field in
`generator.go`, which is missing; its name is the field name with a lower
initial and its type is the type of the field. -/
def fieldParam (u : unicode.CaseTables) (f : FieldInfo) : Param :=
  Param.mk (toLowerCamelCase u f.Name) f.Type_

/-- Modelled from the spec: the return type of the constructors emitted by
`generator.go`, which is missing; a pointer to the struct unless the value is
returned. -/
def resultType (config : GeneratorConfig) : GoString :=
  if config.ReturnValue then config.StructName else "*".toList ++ config.StructName

/-- Modelled from the spec: the statements that end every construction path of
`generator.go`, which is missing; the init hook is called when one is
configured, then the instance is returned. -/
def finishStmts (config : GeneratorConfig) : List Stmt :=
  (if config.InitFunc = [] then [] else [Stmt.callInit config.InitFunc])
    ++ [Stmt.returnInstance config.ReturnValue]

/-- Modelled from the spec: the all-args emission of `generator.go`, which is
missing; one function `New<TypeName>` taking the constructor fields as
parameters in declaration order and assigning each to its field. -/
def allArgsDecls (u : unicode.CaseTables) (config : GeneratorConfig) (info : StructInfo) :
    List Decl :=
  [Decl.funcDecl none ("New".toList ++ config.StructName)
    (info.GetFieldsForConstructor.map (fieldParam u)) (resultType config)
    ([Stmt.newValue config.StructName
        (info.GetFieldsForConstructor.map (fun f => (f.Name, toLowerCamelCase u f.Name)))]
      ++ finishStmts config)]

/-- Modelled from the spec: the builder emission of `generator.go`, which is
missing; the builder type with one field per constructor field, its
constructor, one chaining setter per constructor field named with the
configured prefix, and `Build`. -/
def builderDecls (u : unicode.CaseTables) (config : GeneratorConfig) (info : StructInfo) :
    List Decl :=
  let builder := config.StructName ++ "Builder".toList
  let recv := Param.mk "b".toList ("*".toList ++ builder)
  [Decl.structDecl builder (info.GetFieldsForConstructor.map (fun f => Param.mk f.Name f.Type_)),
   Decl.funcDecl none ("New".toList ++ builder) [] ("*".toList ++ builder)
     [Stmt.returnExpr ("&".toList ++ builder ++ "\x7b\x7d".toList)]]
    ++ info.GetFieldsForConstructor.map
        (fun f =>
          Decl.funcDecl (some recv) (config.SetterPrefix ++ toUpperCamelCase u f.Name)
            [fieldParam u f] ("*".toList ++ builder)
            [Stmt.assign ("b.".toList ++ f.Name) (toLowerCamelCase u f.Name),
             Stmt.returnExpr "b".toList])
    ++ [Decl.funcDecl (some recv) "Build".toList [] (resultType config)
         ([Stmt.newValue config.StructName
             (info.GetFieldsForConstructor.map (fun f => (f.Name, "b.".toList ++ f.Name)))]
           ++ finishStmts config)]

/-- Modelled from the spec: the options emission of `generator.go`, which is
missing; the option type, one option constructor `With<UpperFieldName>` per
constructor field, and the variadic constructor `New<TypeName>WithOptions`. -/
def optionsDecls (u : unicode.CaseTables) (config : GeneratorConfig) (info : StructInfo) :
    List Decl :=
  let option := config.StructName ++ "Option".toList
  [Decl.funcTypeDecl option ("*".toList ++ config.StructName)]
    ++ info.GetFieldsForConstructor.map
        (fun f =>
          Decl.funcDecl none ("With".toList ++ toUpperCamelCase u f.Name) [fieldParam u f] option
            [Stmt.returnOption config.StructName f.Name (toLowerCamelCase u f.Name)])
    ++ [Decl.funcDecl none ("New".toList ++ config.StructName ++ "WithOptions".toList)
         [Param.mk "opts".toList ("...".toList ++ option)] (resultType config)
         ([Stmt.newValue config.StructName [], Stmt.applyOptions] ++ finishStmts config)]

/-- Modelled from the spec: the accessor emission of `generator.go`, which is
missing; one method `Get<UpperFieldName>` per accessor field, on a receiver
named by the lower-cased first rune of the type name. -/
def getterDecls (u : unicode.CaseTables) (config : GeneratorConfig) (info : StructInfo) :
    List Decl :=
  let recvName := (toLowerCamelCase u config.StructName).take 1
  info.GetFieldsForGetter.map
    (fun f =>
      Decl.funcDecl (some (Param.mk recvName ("*".toList ++ config.StructName)))
        ("Get".toList ++ toUpperCamelCase u f.Name) [] f.Type_
        [Stmt.returnExpr (recvName ++ ".".toList ++ f.Name)])

/-- The struct `Generator` that `NewGenerator` returns. -/
structure Generator where
  config : GeneratorConfig
  info : StructInfo

/-- Modelled from the spec: `NewGenerator` of `generator.go`, which is missing;
it keeps the configuration and the struct model. -/
def NewGenerator (config : GeneratorConfig) (info : StructInfo) : Generator :=
  Generator.mk config info

/-- Modelled from the spec: the output of `Generate` of `generator.go`, which
is missing, as declarations; the emission of each requested pattern and, when
accessors are requested, the accessor block once.  A requested name that is
none of the three patterns is outside the spec and emits nothing. -/
def Generator.decls (u : unicode.CaseTables) (g : Generator) : List Decl :=
  (if "allArgs".toList ∈ g.config.ConstructorTypes then allArgsDecls u g.config g.info else [])
    ++ (if "builder".toList ∈ g.config.ConstructorTypes then builderDecls u g.config g.info
      else [])
    ++ (if "options".toList ∈ g.config.ConstructorTypes then optionsDecls u g.config g.info
      else [])
    ++ (if g.config.WithGetter then getterDecls u g.config g.info else [])

/-- Modelled from the spec: the failure conditions of `Generate` of
`generator.go`, which is missing; it fails on an empty type name and on an
empty list of patterns, and otherwise emits its declarations. -/
def Generator.emit (u : unicode.CaseTables) (g : Generator) : Except GoString (List Decl) :=
  if g.config.StructName = [] then Except.error "struct name is empty".toList
  else if g.config.ConstructorTypes = [] then
    Except.error "no constructor type requested".toList
  else Except.ok (g.decls u)

/-- The text of a parameter: its name, a space, its type. -/
def renderParam (p : Param) : GoString := p.Name ++ " ".toList ++ p.Type_

/-- The text of a parameter list, separated by `, `. -/
def renderParams (ps : List Param) : GoString :=
  List.intercalate ", ".toList (ps.map renderParam)

/-- The text of a statement, as one or more lines. -/
def renderStmt : Stmt → GoString
  | Stmt.newValue typeName inits =>
    "\tv := &".toList ++ typeName ++ "\x7b\n".toList
      ++ (inits.map (fun fe => "\t\t".toList ++ fe.1 ++ ": ".toList ++ fe.2 ++ ",\n".toList)).flatten
      ++ "\t\x7d\n".toList
  | Stmt.applyOptions =>
    "\tfor _, opt := range opts \x7b\n\t\topt(v)\n\t\x7d\n".toList
  | Stmt.callInit method => "\tv.".toList ++ method ++ "()\n".toList
  | Stmt.assign target value => "\t".toList ++ target ++ " = ".toList ++ value ++ "\n".toList
  | Stmt.returnInstance byValue =>
    if byValue then "\treturn *v\n".toList else "\treturn v\n".toList
  | Stmt.returnExpr expr => "\treturn ".toList ++ expr ++ "\n".toList
  | Stmt.returnOption typeName field value =>
    "\treturn func(v *".toList ++ typeName ++ ") \x7b\n\t\tv.".toList ++ field ++ " = ".toList
      ++ value ++ "\n\t\x7d\n".toList

/-- The text of the head of a function: `func`, the receiver, the name, the
parameters, the result type and the opening brace. -/
def renderSignature (recv : Option Param) (name : GoString) (params : List Param)
    (result : GoString) : GoString :=
  "func ".toList
    ++ (match recv with
        | some r => "(".toList ++ renderParam r ++ ") ".toList
        | none => [])
    ++ name ++ "(".toList ++ renderParams params ++ ") ".toList ++ result ++ " \x7b".toList

/-- The text of a declaration. -/
def renderDecl : Decl → GoString
  | Decl.funcDecl recv name params result body =>
    renderSignature recv name params result ++ "\n".toList
      ++ (body.map renderStmt).flatten ++ "\x7d\n".toList
  | Decl.structDecl name fields =>
    "type ".toList ++ name ++ " struct \x7b\n".toList
      ++ (fields.map (fun p => "\t".toList ++ renderParam p ++ "\n".toList)).flatten
      ++ "\x7d\n".toList
  | Decl.funcTypeDecl name argType =>
    "type ".toList ++ name ++ " func(".toList ++ argType ++ ")\n".toList

/-- The text of a list of declarations, each preceded by an empty line. -/
def renderDecls (decls : List Decl) : GoString :=
  (decls.map (fun d => "\n".toList ++ renderDecl d)).flatten

/-- Modelled from the spec: `Generate` of `generator.go`, which is missing; the
source text of the emitted declarations after the package clause, or the
configuration error. -/
def Generator.Generate (u : unicode.CaseTables) (g : Generator) : Except GoString GoString :=
  match g.emit u with
  | Except.error err => Except.error err
  | Except.ok decls =>
    Except.ok ("package ".toList ++ g.info.PackageName ++ "\n".toList ++ renderDecls decls)

/-- The struct and configuration of `TestGenerateAllArgsConstructor`. -/
def allArgsTestGenerator : Generator :=
  NewGenerator
    (GeneratorConfig.mk "TestStruct".toList ["allArgs".toList] [] [] false [] false)
    (StructInfo.mk "TestStruct".toList
      [FieldInfo.mk "name".toList "string".toList [] false false false false,
       FieldInfo.mk "age".toList "int".toList [] false false false false]
      "test".toList)

/-- The struct of `TestSkipFieldsInGeneration` with an exported field `Port`
added, requested with all three patterns and returned by value. -/
def mixedTestGenerator : Generator :=
  NewGenerator
    (GeneratorConfig.mk "TestStruct".toList
      ["allArgs".toList, "builder".toList, "options".toList] [] [] true [] false)
    (StructInfo.mk "TestStruct".toList
      [FieldInfo.mk "name".toList "string".toList [] false false false false,
       FieldInfo.mk "internal".toList "string".toList [] false true false false,
       FieldInfo.mk "Port".toList "int".toList [] true false false false]
      "test".toList)

/-- The configuration of `TestGenerateAllArgsConstructor` with an empty type name. -/
def unnamedTestGenerator : Generator :=
  NewGenerator
    (GeneratorConfig.mk [] ["allArgs".toList] [] [] false [] false)
    (StructInfo.mk "TestStruct".toList
      [FieldInfo.mk "name".toList "string".toList [] false false false false]
      "test".toList)

/-- A file `package p` declaring `type T struct` with the field `a int`, then a
function `f` whose body declares a local `type T struct` with the field
`b string`; the local declaration lies below the nodes of the function, its
block, the declaration statement and the declaration. -/
def shadowFile : ast.File :=
  ast.File.mk "p".toList
    [ast.Node.Other
       [ast.Node.TypeSpec "T".toList
          (ast.Expr.StructType
            [ast.Field.mk ["a".toList] (ast.Expr.Ident "int".toList) none])
          []],
     ast.Node.Other
       [ast.Node.Other
          [ast.Node.Other
             [ast.Node.Other
                [ast.Node.TypeSpec "T".toList
                   (ast.Expr.StructType
                     [ast.Field.mk ["b".toList] (ast.Expr.Ident "string".toList) none])
                   []]]]]]

/-- A file system holding `shadowFile` under the name `shadow.go` and nothing else. -/
def shadowParseFile (filename : GoString) : Except GoString ast.File :=
  if filename = "shadow.go".toList then Except.ok shadowFile
  else Except.error "open: no such file".toList

/-- The type of the receiver of an emitted method; `none` for a function and
for a type declaration. -/
def Decl.recvType : Decl → Option GoString
  | Decl.funcDecl (some r) _ _ _ _ => some r.Type_
  | _ => none

/-- The name of an emitted function or method. -/
def Decl.funcName : Decl → GoString
  | Decl.funcDecl _ name _ _ _ => name
  | _ => []

/-- The number of parameters of an emitted function or method. -/
def Decl.paramCount : Decl → Nat
  | Decl.funcDecl _ _ params _ _ => params.length
  | _ => 0

/-- The result type of an emitted function or method. -/
def Decl.resultOf : Decl → Option GoString
  | Decl.funcDecl _ _ _ result _ => some result
  | _ => none

/-- The body of an emitted function or method. -/
def Decl.body : Decl → List Stmt
  | Decl.funcDecl _ _ _ _ body => body
  | _ => []

/-- The emitted methods on the struct itself: the receiver has the type `*<StructName>`. -/
def isStructMethod (structName : GoString) (d : Decl) : Bool :=
  d.recvType == some ("*".toList ++ structName)

/-- The emitted setters of the builder: methods on `*<StructName>Builder` that
take one parameter. -/
def isBuilderSetter (structName : GoString) (d : Decl) : Bool :=
  d.recvType == some ("*".toList ++ (structName ++ "Builder".toList)) && d.paramCount == 1

/-- The emitted option constructors: functions that return `<StructName>Option`. -/
def isOptionFunc (structName : GoString) (d : Decl) : Bool :=
  d.recvType == none && d.resultOf == some (structName ++ "Option".toList)

/-- The struct and configuration of `TestGenerateWithGetters`. -/
def gettersTestGenerator : Generator :=
  NewGenerator
    (GeneratorConfig.mk "TestStruct".toList ["allArgs".toList] [] [] false [] true)
    (StructInfo.mk "TestStruct".toList
      [FieldInfo.mk "name".toList "string".toList [] false false false false,
       FieldInfo.mk "PublicField".toList "int".toList [] true false false false]
      "test".toList)

/-- The struct `Database` of `examples/builder/database.go` without its field
`username`, requested with the patterns `builder` and `options`, no setter
prefix and the init hook `initialize`. -/
def databaseTestGenerator : Generator :=
  NewGenerator
    (GeneratorConfig.mk "Database".toList ["builder".toList, "options".toList] []
      "initialize".toList false [] false)
    (StructInfo.mk "Database".toList
      [newFieldInfo "host".toList "string".toList [] false,
       newFieldInfo "port".toList "int".toList [] false,
       newFieldInfo "password".toList "string".toList
         (rawTag "constructor:\"getter:false\"".toList) false,
       newFieldInfo "poolSize".toList "int".toList
         (rawTag "constructor:\"setter:false\"".toList) false]
      "builder".toList)

/-- The struct and configuration of `TestGenerateWithInitFunc`. -/
def initTestGenerator : Generator :=
  NewGenerator
    (GeneratorConfig.mk "TestStruct".toList ["allArgs".toList] [] "initialize".toList false []
      false)
    (StructInfo.mk "TestStruct".toList
      [FieldInfo.mk "name".toList "string".toList [] false false false false]
      "test".toList)

/-! ### The command `main` -/

namespace strings

/-- Scanning loop of `strings.Split` for a separator of one code point: `cur`
is the element being read, kept in reverse. -/
def splitAux (sep : Char) : List Char → List Char → List GoString
  | [], cur => [cur.reverse]
  | c :: cs, cur =>
    if c = sep then cur.reverse :: splitAux sep cs [] else splitAux sep cs (c :: cur)

/-- Go's `strings.Split` for a separator of one code point: the substrings
between the separators; the empty string gives one empty element. -/
def Split (s : GoString) (sep : Char) : List GoString := splitAux sep s []

/-- Go's `strings.TrimSpace`: drops leading and trailing white space. -/
def TrimSpace (s : GoString) : GoString :=
  ((s.dropWhile unicode.IsSpace).reverse.dropWhile unicode.IsSpace).reverse

/-- Go's `strings.HasSuffix`. -/
def HasSuffix (s suffix : GoString) : Bool := suffix.isSuffixOf s

/-- Go's `strings.ToLower`, over the case tables. -/
def ToLower (u : unicode.CaseTables) (s : GoString) : GoString := s.map u.ToLower

end strings

/-- The constant `version` of `main.go`. -/
def version : GoString := "1.0.0".toList

/-- The values of the flags of `main` after `flag.Parse`. -/
structure Flags where
  typeName : GoString
  constructorTypes : GoString
  outputFile : GoString
  initFunc : GoString
  returnValue : Bool
  setterPrefix : GoString
  withGetter : Bool
  showVersion : Bool

/-- What `main` reads from and calls outside `main.go` and `parser.go`: the
variable `GOFILE`, the result of `filepath.Glob("*.go")`, the Go parser,
`filepath.Dir`, `filepath.Join`, the error of `os.WriteFile` if any, and
`NewGenerator(config, structInfo).Generate()` of `generator.go`. -/
structure Env where
  gofile : GoString
  goFiles : Except GoString (List GoString)
  parseFile : GoString → Except GoString ast.File
  dir : GoString → GoString
  join : GoString → GoString → GoString
  writeFile : GoString → GoString → Option GoString
  generate : GeneratorConfig → StructInfo → Except GoString GoString

/-- What a run of `main` does: the exit code, the text printed to the standard
output and to the standard error, whether `flag.Usage` was called, the
configuration handed to the generator when code generation was reached, and
the path and content handed to `os.WriteFile` when it was called. -/
structure Outcome where
  exitCode : Nat
  stdout : GoString
  stderr : GoString
  usage : Bool
  generated : Option GeneratorConfig
  written : Option (GoString × GoString)

/-- The loop of `findSourceFile` over the Go files of the directory: the first
file that is not generated and in which `ParseStruct` finds the struct; a file
for which `ParseStruct` returns an error is passed over, and a panic of
`ParseStruct` ends the loop. -/
def findInFiles (u : unicode.CaseTables) (parseFile : GoString → Except GoString ast.File)
    (typeName : GoString) : List GoString → Except Failure (Option GoString)
  | [] => Except.ok none
  | file :: files =>
    if strings.HasSuffix file "_gen.go".toList then findInFiles u parseFile typeName files
    else
      match ParseStruct u parseFile file typeName with
      | Except.ok _ => Except.ok (some file)
      | Except.error (Failure.err _) => findInFiles u parseFile typeName files
      | Except.error (Failure.panic msg) => Except.error (Failure.panic msg)

/-- The function `findSourceFile` of `main.go`. -/
def findSourceFile (u : unicode.CaseTables) (env : Env) (typeName : GoString) :
    Except Failure GoString :=
  if env.gofile ≠ [] then Except.ok env.gofile
  else
    match env.goFiles with
    | Except.error err => Except.error (Failure.err ("failed to list Go files: ".toList ++ err))
    | Except.ok files =>
      match findInFiles u env.parseFile typeName files with
      | Except.error failure => Except.error failure
      | Except.ok (some file) => Except.ok file
      | Except.ok none =>
        Except.error
          (Failure.err
            ("could not find struct ".toList ++ typeName ++ " in current directory".toList))

/-- The outcome of a run that a panic ends: the Go run time prints `panic: `
and the message to the standard error, then the stack trace, which is left
out here, and exits with code 2. -/
def panicOutcome (msg : GoString) : Outcome :=
  Outcome.mk 2 [] ("panic: ".toList ++ msg ++ "\n".toList) false none none

/-- The lines of `main` that parse the flag `-constructorTypes`: the elements
between commas, each with its surrounding white space trimmed. -/
def parseConstructorTypes (constructorTypes : GoString) : List GoString :=
  (strings.Split constructorTypes ',').map strings.TrimSpace

/-- The loop of `main` that validates the constructor types: the first element
that is none of `allArgs`, `builder`, `options`, if any. -/
def firstInvalidType : List GoString → Option GoString
  | [] => none
  | t :: ts =>
    if t ≠ "allArgs".toList ∧ t ≠ "builder".toList ∧ t ≠ "options".toList then some t
    else firstInvalidType ts

/-- The function `main` of `main.go`, from the parsed flags and the
environment to the outcome of the run; Lean keeps the bare name `main` for
programs, so it is named after its package. -/
def main.main (u : unicode.CaseTables) (env : Env) (flags : Flags) : Outcome :=
  if flags.showVersion then
    Outcome.mk 0 ("constructor version ".toList ++ version ++ "\n".toList) [] false none none
  else if flags.typeName = [] then
    Outcome.mk 1 [] "Error: -type flag is mandatory\n\n".toList true none none
  else
    match findSourceFile u env flags.typeName with
    | Except.error (Failure.panic msg) => panicOutcome msg
    | Except.error (Failure.err err) =>
      Outcome.mk 1 [] ("Error: ".toList ++ err ++ "\n".toList) false none none
    | Except.ok sourceFile =>
      match ParseStruct u env.parseFile sourceFile flags.typeName with
      | Except.error (Failure.panic msg) => panicOutcome msg
      | Except.error (Failure.err err) =>
        Outcome.mk 1 [] ("Error parsing struct: ".toList ++ err ++ "\n".toList) false none none
      | Except.ok structInfo =>
        let output :=
          if flags.outputFile = [] then
            env.join (env.dir sourceFile)
              (strings.ToLower u flags.typeName ++ "_gen.go".toList)
          else flags.outputFile
        let types := parseConstructorTypes flags.constructorTypes
        match firstInvalidType types with
        | some t =>
          Outcome.mk 1 []
            ("Error: invalid constructor type '".toList ++ t
              ++ "'. Valid types: allArgs, builder, options\n".toList) false none none
        | none =>
          let config :=
            GeneratorConfig.mk flags.typeName types output flags.initFunc flags.returnValue
              flags.setterPrefix flags.withGetter
          match env.generate config structInfo with
          | Except.error err =>
            Outcome.mk 1 [] ("Error generating code: ".toList ++ err ++ "\n".toList) false
              (some config) none
          | Except.ok code =>
            match env.writeFile output code with
            | some err =>
              Outcome.mk 1 [] ("Error writing output file: ".toList ++ err ++ "\n".toList)
                false (some config) (some (output, code))
            | none =>
              Outcome.mk 0 ("Generated constructor code in ".toList ++ output ++ "\n".toList)
                [] false (some config) (some (output, code))

/-- An environment with `sampleFile` as `test.go`, named by `GOFILE`, and the
modelled generator. -/
def sampleEnv : Env :=
  Env.mk "test.go".toList (Except.ok ["test.go".toList]) sampleParseFile
    (fun _ => ".".toList) (fun d f => d ++ "/".toList ++ f) (fun _ _ => none)
    (fun config info => (NewGenerator config info).Generate unicode.asciiTables)

/-- The flags `-type=TestStruct -constructorTypes=<types>`. -/
def sampleFlags (typeName constructorTypes : GoString) : Flags :=
  Flags.mk typeName constructorTypes [] [] false [] false false

/-! ## The two field views -/

/-- A loop that appends the selected elements to an accumulator computes the
accumulator followed by the filtered list. -/
theorem foldl_append_select {α : Type} (p : α → Bool) (l : List α) (acc : List α) :
    l.foldl (fun result x => if p x then result ++ [x] else result) acc = acc ++ l.filter p := by
  induction l generalizing acc with
  | nil => simp
  | cons x xs ih =>
    rw [List.foldl_cons, ih]
    by_cases hx : p x = true
    · simp [hx, List.filter_cons]
    · simp [hx, List.filter_cons]

/-- C1: `GetFieldsForConstructor` returns exactly the fields with `Skip = false`
and `SkipSetter = false`, in declaration order: it is the filter of `Fields`
by that predicate. -/
theorem getFieldsForConstructor_eq_filter (s : StructInfo) :
    s.GetFieldsForConstructor = s.Fields.filter (fun f => !f.Skip && !f.SkipSetter) := by
  unfold StructInfo.GetFieldsForConstructor
  rw [foldl_append_select (fun f : FieldInfo => !f.Skip && !f.SkipSetter)]
  simp

/-- C2: `GetFieldsForGetter` returns exactly the fields with `Skip = false`,
`SkipGetter = false` and `Exported = false`, in declaration order; no exported
field is returned. -/
theorem getFieldsForGetter_eq_filter (s : StructInfo) :
    s.GetFieldsForGetter
        = s.Fields.filter (fun f => !f.Skip && !f.SkipGetter && !f.Exported)
      ∧ ∀ f ∈ s.GetFieldsForGetter, f.Exported = false := by
  have h : s.GetFieldsForGetter
      = s.Fields.filter (fun f => !f.Skip && !f.SkipGetter && !f.Exported) := by
    unfold StructInfo.GetFieldsForGetter
    rw [foldl_append_select (fun f : FieldInfo => !f.Skip && !f.SkipGetter && !f.Exported)]
    simp
  refine ⟨h, ?_⟩
  intro f hf
  rw [h, List.mem_filter] at hf
  have h2 := hf.2
  simp only [Bool.and_eq_true, Bool.not_eq_true'] at h2
  exact h2.2

/-- Membership in the constructor view. -/
theorem mem_getFieldsForConstructor (s : StructInfo) (f : FieldInfo) :
    f ∈ s.GetFieldsForConstructor ↔ f ∈ s.Fields ∧ f.Skip = false ∧ f.SkipSetter = false := by
  unfold StructInfo.GetFieldsForConstructor
  rw [foldl_append_select (fun f : FieldInfo => !f.Skip && !f.SkipSetter)]
  simp [List.mem_filter]

/-- Membership in the getter view. -/
theorem mem_getFieldsForGetter (s : StructInfo) (f : FieldInfo) :
    f ∈ s.GetFieldsForGetter
      ↔ f ∈ s.Fields ∧ f.Skip = false ∧ f.SkipGetter = false ∧ f.Exported = false := by
  unfold StructInfo.GetFieldsForGetter
  rw [foldl_append_select (fun f : FieldInfo => !f.Skip && !f.SkipGetter && !f.Exported)]
  simp [List.mem_filter, and_assoc]

/-- C3: a field of `s` with `Skip = true` occurs in neither view, whatever its
other flags. -/
theorem skip_field_in_no_view (s : StructInfo) (f : FieldInfo) (hf : f ∈ s.Fields)
    (hskip : f.Skip = true) :
    f ∉ s.GetFieldsForConstructor ∧ f ∉ s.GetFieldsForGetter := by
  have _ := hf
  constructor
  · intro h
    have := ((mem_getFieldsForConstructor s f).1 h).2.1
    rw [hskip] at this
    exact Bool.noConfusion this
  · intro h
    have := ((mem_getFieldsForGetter s f).1 h).2.1
    rw [hskip] at this
    exact Bool.noConfusion this

/-- Witness of C3 on `testStructInfo` and its skipped field. -/
theorem skip_field_in_no_view_witness :
    FieldInfo.mk "field2".toList [] [] true true true true ∈ testStructInfo.Fields
      ∧ FieldInfo.mk "field2".toList [] [] true true true true ∉ testStructInfo.GetFieldsForConstructor
      ∧ FieldInfo.mk "field2".toList [] [] true true true true ∉ testStructInfo.GetFieldsForGetter :=
  ⟨by decide,
   skip_field_in_no_view testStructInfo
     (FieldInfo.mk "field2".toList [] [] true true true true) (by decide) rfl⟩

/-! ## The loop of `parseFieldSkipTags` -/

/-- One pass of the loop only adds flags: each flag afterwards is the flag
before, or-ed with what the token sets. -/
theorem skipTagsStep_eq (st : Bool × Bool × Bool) (part : GoString) :
    skipTagsStep st part
      = (st.1 || setsSkip part, st.2.1 || setsSkipGetter part, st.2.2 || setsSkipSetter part) := by
  obtain ⟨a, b, c⟩ := st
  simp only [skipTagsStep, setsSkip, setsSkipGetter, setsSkipSetter, tagValueOf]
  split_ifs <;> simp_all

/-- The loop over a list of tokens or-s into each flag whether some token sets it. -/
theorem foldl_skipTagsStep (parts : List GoString) (st : Bool × Bool × Bool) :
    parts.foldl skipTagsStep st
      = (st.1 || parts.any setsSkip, st.2.1 || parts.any setsSkipGetter,
          st.2.2 || parts.any setsSkipSetter) := by
  induction parts generalizing st with
  | nil => simp
  | cons p ps ih =>
    rw [List.foldl_cons, ih, skipTagsStep_eq]
    simp [List.any_cons, Bool.or_assoc]

/-- The early return for the empty tag agrees with the loop: the empty tag has no token. -/
theorem parseFieldSkipTags_eq (tag : GoString) :
    parseFieldSkipTags tag
      = ((tagParts tag).any setsSkip, (tagParts tag).any setsSkipGetter,
          (tagParts tag).any setsSkipSetter) := by
  unfold parseFieldSkipTags
  split_ifs with h
  · subst h
    have : tagParts [] = [] := by decide
    rw [this]
    rfl
  · rw [foldl_skipTagsStep]
    simp

/-! ## Facts about the modelled `strings` functions -/

/-- The call `HasPrefix s pre` holds exactly when `pre` is a prefix of `s`. -/
theorem hasPrefix_iff (s pre : GoString) : strings.HasPrefix s pre = true ↔ pre <+: s := by
  unfold strings.HasPrefix
  exact List.isPrefixOf_iff_prefix

/-- The function `TrimPrefix` removes a prefix that is present. -/
theorem trimPrefix_append (pre rest : GoString) : strings.TrimPrefix (pre ++ rest) pre = rest := by
  unfold strings.TrimPrefix
  have h : strings.HasPrefix (pre ++ rest) pre = true :=
    (hasPrefix_iff _ _).2 (List.prefix_append pre rest)
  simp [h]

/-- The call `Contains s substr` holds exactly when `substr` is a contiguous part of `s`. -/
theorem contains_iff (s substr : GoString) : strings.Contains s substr = true ↔ substr <:+: s := by
  induction s with
  | nil =>
    simp only [strings.Contains, List.infix_nil]
    rw [List.isPrefixOf_iff_prefix, List.prefix_nil]
  | cons c cs ih =>
    simp only [strings.Contains, Bool.or_eq_true, ih, List.infix_cons_iff]
    rw [List.isPrefixOf_iff_prefix]

/-- A token starts with `key` and carries the value `-` exactly when the check
the parser makes for `key` succeeds. -/
theorem key_check_iff (part key : GoString) :
    (strings.HasPrefix part key = true ∧ tagValueOf part key = "-".toList)
      ↔ ∃ rest, part = key ++ rest ∧ strings.Trim rest dquote = "-".toList := by
  constructor
  · rintro ⟨hp, hv⟩
    obtain ⟨rest, hrest⟩ := (hasPrefix_iff _ _).1 hp
    refine ⟨rest, hrest.symm, ?_⟩
    rw [← hrest] at hv
    simpa [tagValueOf, trimPrefix_append] using hv
  · rintro ⟨rest, rfl, hv⟩
    refine ⟨(hasPrefix_iff _ _).2 (List.prefix_append key rest), ?_⟩
    simpa [tagValueOf, trimPrefix_append] using hv

/-- The tokens that set `skip`, described without the parser's functions: the
token is one of the three keys followed by a remainder that is `-` once its
surrounding double quotes are removed. -/
theorem setsSkip_iff (part : GoString) :
    setsSkip part = true
      ↔ ∃ key ∈ [keyConstructor, keyNewc, keyGonstructor],
          ∃ rest, part = key ++ rest ∧ strings.Trim rest dquote = "-".toList := by
  have hC := key_check_iff part keyConstructor
  have hN := key_check_iff part keyNewc
  have hG := key_check_iff part keyGonstructor
  simp only [setsSkip, Bool.or_eq_true, Bool.and_eq_true, decide_eq_true_eq, hC, hN, hG,
    List.mem_cons, List.mem_singleton, List.not_mem_nil, or_false, exists_eq_or_imp,
    exists_eq_left, or_assoc]

/-- C5: `shouldSkipField` is the first component of `parseFieldSkipTags`, and
it is true exactly when, once the leading and trailing backticks of the tag are
removed and the rest is split on white space, some token is one of the keys
`constructor:`, `newc:`, `gonstructor:` followed by a remainder that is `-`
after its leading and trailing double quotes are stripped. -/
theorem shouldSkipField_iff (t : GoString) :
    shouldSkipField t = (parseFieldSkipTags t).1
      ∧ (shouldSkipField t = true
          ↔ ∃ part ∈ strings.Fields (strings.Trim t backtick),
              ∃ key ∈ ["constructor:".toList, "newc:".toList, "gonstructor:".toList],
                ∃ rest, part = key ++ rest ∧ strings.Trim rest dquote = "-".toList) := by
  have h1 : shouldSkipField t = (parseFieldSkipTags t).1 := rfl
  refine ⟨h1, ?_⟩
  rw [h1, parseFieldSkipTags_eq]
  simp only [List.any_eq_true, setsSkip_iff]
  rfl

/-- Dropping leading characters that satisfy `p` keeps every occurrence of a
non-empty string none of whose characters satisfies `p`. -/
theorem infix_dropWhile (p : Char → Bool) (sub l : List Char) (hne : sub ≠ [])
    (hall : ∀ c ∈ sub, p c = false) (h : sub <:+: l) : sub <:+: l.dropWhile p := by
  obtain ⟨a, b, hab⟩ := h
  subst hab
  induction a with
  | nil =>
    cases sub with
    | nil => exact absurd rfl hne
    | cons x t =>
      have hx : p x = false := hall x (List.mem_cons_self x t)
      simp only [List.nil_append, List.cons_append, List.dropWhile_cons, hx]
      exact ⟨[], b, by simp⟩
  | cons y ys ih =>
    by_cases hy : p y = true
    · simpa [List.dropWhile_cons, hy] using ih
    · have hy2 : p y = false := by simpa using hy
      simp only [List.cons_append, List.dropWhile_cons, hy2]
      exact ⟨y :: ys, b, by simp⟩

/-- The function `Trim` keeps every occurrence of a non-empty string that has no character
of the cutset. -/
theorem infix_trim (cutset sub l : GoString) (hne : sub ≠ [])
    (hall : ∀ c ∈ sub, cutset.contains c = false) (h : sub <:+: l) :
    sub <:+: strings.Trim l cutset := by
  unfold strings.Trim strings.TrimLeft strings.TrimRight
  apply infix_dropWhile _ _ _ hne hall
  rw [← List.reverse_infix, List.reverse_reverse]
  apply infix_dropWhile _ _ _ (by simpa using hne) (by simpa using hall)
  rw [List.reverse_infix]
  exact h

/-- An occurrence of `sub` in `key ++ rest` lies in `rest` when no non-empty
end of `key` can be the start of an occurrence of `sub`. -/
theorem infix_of_infix_append (key rest sub : List Char)
    (hkey : ∀ e ∈ key.tails, e ≠ [] → ¬ e <+: sub ∧ ¬ sub <+: e)
    (h : sub <:+: key ++ rest) : sub <:+: rest := by
  obtain ⟨a, b, hab⟩ := h
  rw [List.append_assoc, List.append_eq_append_iff] at hab
  rcases hab with ⟨e, hsplit, hrest⟩ | ⟨c, _, hrest⟩
  · by_cases he : e = []
    · subst he
      exact ⟨[], b, by simpa using hrest⟩
    · exfalso
      have hmem : e ∈ key.tails := (List.mem_tails e key).2 ⟨a, hsplit.symm⟩
      have h1 : e <+: sub ++ b := ⟨rest, hrest.symm⟩
      have h2 : sub <+: sub ++ b := List.prefix_append sub b
      rcases List.prefix_or_prefix_of_prefix h1 h2 with h3 | h3
      · exact (hkey e hmem he).1 h3
      · exact (hkey e hmem he).2 h3
  · exact ⟨c, b, by rw [hrest, List.append_assoc]⟩

/-- The function `Trim` returns a contiguous part of its argument. -/
theorem trim_part_of_arg (l cutset : GoString) : strings.Trim l cutset <:+: l := by
  unfold strings.Trim strings.TrimLeft strings.TrimRight
  refine List.IsInfix.trans (List.dropWhile_suffix _).isInfix ?_
  rw [← List.reverse_infix, List.reverse_reverse]
  exact (List.dropWhile_suffix _).isInfix

/-- The value read after `constructor:` still holds a partial directive that
the token holds. -/
theorem directive_in_tagValue (part sub : GoString) (hne : sub ≠ [])
    (hkey : ∀ e ∈ keyConstructor.tails, e ≠ [] → ¬ e <+: sub ∧ ¬ sub <+: e)
    (hq : ∀ c ∈ sub, dquote.contains c = false)
    (hpre : keyConstructor <+: part) (hin : sub <:+: part) :
    sub <:+: tagValueOf part keyConstructor := by
  obtain ⟨rest, rfl⟩ := hpre
  unfold tagValueOf
  rw [trimPrefix_append]
  exact infix_trim _ _ _ hne hq (infix_of_infix_append keyConstructor rest sub hkey hin)

/-- The value read after a key is a contiguous part of the token. -/
theorem tagValueOf_part_of_token (part key : GoString) : tagValueOf part key <:+: part := by
  unfold tagValueOf
  refine List.IsInfix.trans (trim_part_of_arg _ _) ?_
  unfold strings.TrimPrefix
  split_ifs
  · exact (List.drop_suffix _ _).isInfix
  · exact List.infix_refl _

/-- A token starting with `constructor:` that holds `getter:false` sets `skipGetter`. -/
theorem setsSkipGetter_of_token (part : GoString) (hpre : "constructor:".toList <+: part)
    (hin : "getter:false".toList <:+: part) : setsSkipGetter part = true := by
  have hv : "getter:false".toList <:+: tagValueOf part keyConstructor :=
    directive_in_tagValue part _ (by decide) (by decide) (by decide) hpre hin
  have hne : tagValueOf part keyConstructor ≠ "-".toList := by
    intro h
    rw [h] at hv
    have := hv.length_le
    revert this
    decide
  simp only [setsSkipGetter, Bool.and_eq_true, Bool.not_eq_true', decide_eq_false_iff_not]
  exact ⟨⟨(hasPrefix_iff _ _).2 hpre, hne⟩, (contains_iff _ _).2 hv⟩

/-- C6: when some token of the tag (the tag split on white space after its
surrounding backticks are removed) starts with `constructor:` and contains
`getter:false`, `parseFieldSkipTags` returns `skipGetter = true`. -/
theorem skipGetter_of_getter_false (tag part : GoString)
    (hpart : part ∈ strings.Fields (strings.Trim tag backtick))
    (hpre : "constructor:".toList <+: part)
    (hin : "getter:false".toList <:+: part) :
    (parseFieldSkipTags tag).2.1 = true := by
  rw [parseFieldSkipTags_eq]
  simp only [List.any_eq_true]
  exact ⟨part, hpart, setsSkipGetter_of_token part hpre hin⟩

/-- Witness of C6 on the tag of `TestParseFieldSkipTags` named "mixed tags". -/
theorem skipGetter_of_getter_false_witness :
    (parseFieldSkipTags "`json:\"name\" constructor:\"getter:false\"`".toList).2.1 = true :=
  skipGetter_of_getter_false "`json:\"name\" constructor:\"getter:false\"`".toList
    "constructor:\"getter:false\"".toList (by decide)
    ⟨"\"getter:false\"".toList, by decide⟩ ⟨"constructor:\"".toList, "\"".toList, by decide⟩

/-- A token starting with `constructor:` that holds `setter:false` and does
not hold `getter:false` sets `skipSetter`. -/
theorem setsSkipSetter_of_token (part : GoString) (hpre : "constructor:".toList <+: part)
    (hin : "setter:false".toList <:+: part) (hno : ¬ "getter:false".toList <:+: part) :
    setsSkipSetter part = true := by
  have hv : "setter:false".toList <:+: tagValueOf part keyConstructor :=
    directive_in_tagValue part _ (by decide) (by decide) (by decide) hpre hin
  have hne : tagValueOf part keyConstructor ≠ "-".toList := by
    intro h
    rw [h] at hv
    have := hv.length_le
    revert this
    decide
  have hg : strings.Contains (tagValueOf part keyConstructor) "getter:false".toList = false := by
    rw [Bool.eq_false_iff]
    intro h
    exact hno (List.IsInfix.trans ((contains_iff _ _).1 h) (tagValueOf_part_of_token part keyConstructor))
  simp only [setsSkipSetter, Bool.and_eq_true, Bool.not_eq_true', decide_eq_false_iff_not]
  exact ⟨⟨⟨(hasPrefix_iff _ _).2 hpre, hne⟩, hg⟩, (contains_iff _ _).2 hv⟩

/-- C7, counterexample: the tag `constructor:"getter:false,setter:false"` has a
token that starts with `constructor:` and contains `setter:false`, and
`parseFieldSkipTags` returns `skipSetter = false` for it. -/
theorem skipSetter_combined_counterexample :
    "constructor:\"getter:false,setter:false\"".toList
        ∈ strings.Fields
            (strings.Trim "`constructor:\"getter:false,setter:false\"`".toList backtick)
      ∧ "constructor:".toList <+: "constructor:\"getter:false,setter:false\"".toList
      ∧ "setter:false".toList <:+: "constructor:\"getter:false,setter:false\"".toList
      ∧ (parseFieldSkipTags "`constructor:\"getter:false,setter:false\"`".toList).2.2 = false := by
  refine ⟨by decide, ⟨"\"getter:false,setter:false\"".toList, by decide⟩,
    ⟨"constructor:\"getter:false,".toList, "\"".toList, by decide⟩, by decide⟩

/-- C7, amended: when some token of the tag starts with `constructor:`,
contains `setter:false` and does not contain `getter:false`,
`parseFieldSkipTags` returns `skipSetter = true`. -/
theorem skipSetter_of_setter_false (tag part : GoString)
    (hpart : part ∈ strings.Fields (strings.Trim tag backtick))
    (hpre : "constructor:".toList <+: part)
    (hin : "setter:false".toList <:+: part)
    (hno : ¬ "getter:false".toList <:+: part) :
    (parseFieldSkipTags tag).2.2 = true := by
  rw [parseFieldSkipTags_eq]
  simp only [List.any_eq_true]
  exact ⟨part, hpart, setsSkipSetter_of_token part hpre hin hno⟩

/-- Witness of the amended C7 on the tag `constructor:"setter:false"`. -/
theorem skipSetter_of_setter_false_witness :
    (parseFieldSkipTags "`constructor:\"setter:false\"`".toList).2.2 = true :=
  skipSetter_of_setter_false "`constructor:\"setter:false\"`".toList
    "constructor:\"setter:false\"".toList (by decide)
    ⟨"\"setter:false\"".toList, by decide⟩ ⟨"constructor:\"".toList, "\"".toList, by decide⟩
    (by decide)

/-- A token that starts with `constructor:` starts with neither legacy key. -/
theorem legacy_keys_excluded (part : GoString)
    (h : strings.HasPrefix part keyConstructor = true) :
    strings.HasPrefix part keyNewc = false ∧ strings.HasPrefix part keyGonstructor = false := by
  have hC : keyConstructor = 'c' :: "onstructor:".toList := rfl
  have hN : keyNewc = 'n' :: "ewc:".toList := rfl
  have hG : keyGonstructor = 'g' :: "onstructor:".toList := rfl
  cases part with
  | nil => simp [strings.HasPrefix, hC, List.isPrefixOf] at h
  | cons x xs =>
    simp only [strings.HasPrefix, hC, List.isPrefixOf, Bool.and_eq_true, beq_iff_eq] at h
    have hx : x = 'c' := h.1.symm
    subst hx
    constructor
    · simp [strings.HasPrefix, hN, List.isPrefixOf]
    · simp [strings.HasPrefix, hG, List.isPrefixOf]

/-- A single token sets at most one of the three flags. -/
theorem token_sets_at_most_one (part : GoString) :
    ¬ (setsSkip part = true ∧ setsSkipGetter part = true)
      ∧ ¬ (setsSkip part = true ∧ setsSkipSetter part = true)
      ∧ ¬ (setsSkipGetter part = true ∧ setsSkipSetter part = true) := by
  have key : ∀ (hp : strings.HasPrefix part keyConstructor = true)
      (hv : tagValueOf part keyConstructor ≠ "-".toList), setsSkip part = false := by
    intro hp hv
    obtain ⟨hN, hG⟩ := legacy_keys_excluded part hp
    simp only [setsSkip, hN, hG, hp, Bool.false_and, Bool.or_false, Bool.true_and]
    exact decide_eq_false hv
  refine ⟨?_, ?_, ?_⟩
  · rintro ⟨h1, h2⟩
    simp only [setsSkipGetter, Bool.and_eq_true, Bool.not_eq_true',
      decide_eq_false_iff_not] at h2
    rw [key h2.1.1 h2.1.2] at h1
    exact Bool.noConfusion h1
  · rintro ⟨h1, h2⟩
    simp only [setsSkipSetter, Bool.and_eq_true, Bool.not_eq_true',
      decide_eq_false_iff_not] at h2
    rw [key h2.1.1.1 h2.1.1.2] at h1
    exact Bool.noConfusion h1
  · rintro ⟨h1, h2⟩
    simp only [setsSkipGetter, Bool.and_eq_true] at h1
    simp only [setsSkipSetter, Bool.and_eq_true, Bool.not_eq_true'] at h2
    rw [h2.1.2] at h1
    exact Bool.noConfusion h1.2

/-- C8: for a tag with exactly one token, at most one of `skip`, `skipGetter`,
`skipSetter` is true; `constructor:"-"` gives `(true, false, false)`,
`constructor:"getter:false"` gives `(false, true, false)` and
`constructor:"setter:false"` gives `(false, false, true)`. -/
theorem single_token_sets_one_flag (tag : GoString)
    (hone : (strings.Fields (strings.Trim tag backtick)).length = 1) :
    (¬ ((parseFieldSkipTags tag).1 = true ∧ (parseFieldSkipTags tag).2.1 = true)
        ∧ ¬ ((parseFieldSkipTags tag).1 = true ∧ (parseFieldSkipTags tag).2.2 = true)
        ∧ ¬ ((parseFieldSkipTags tag).2.1 = true ∧ (parseFieldSkipTags tag).2.2 = true))
      ∧ parseFieldSkipTags (rawTag "constructor:\"-\"".toList) = (true, false, false)
      ∧ parseFieldSkipTags (rawTag "constructor:\"getter:false\"".toList) = (false, true, false)
      ∧ parseFieldSkipTags (rawTag "constructor:\"setter:false\"".toList)
          = (false, false, true) := by
  refine ⟨?_, by decide, by decide, by decide⟩
  obtain ⟨part, hpart⟩ := List.length_eq_one.1 hone
  have hparts : tagParts tag = [part] := hpart
  rw [parseFieldSkipTags_eq, hparts]
  simpa using token_sets_at_most_one part

/-- Witness of C8 on the tag `constructor:"getter:false"`. -/
theorem single_token_sets_one_flag_witness :
    (strings.Fields (strings.Trim (rawTag "constructor:\"getter:false\"".toList) backtick)).length
        = 1
      ∧ ¬ ((parseFieldSkipTags (rawTag "constructor:\"getter:false\"".toList)).2.1 = true
            ∧ (parseFieldSkipTags (rawTag "constructor:\"getter:false\"".toList)).2.2 = true) :=
  ⟨by decide,
   (single_token_sets_one_flag (rawTag "constructor:\"getter:false\"".toList)
      (by decide)).1.2.2⟩

/-- C9: for a tag with no token starting with `constructor:`, `skipGetter` and
`skipSetter` are false, and `skip` is true exactly when some token is `newc:`
or `gonstructor:` followed by a remainder that is `-` once its surrounding
double quotes are stripped; `newc:"getter:false"` and `newc:"value"` give all
false. -/
theorem legacy_keys_only_full_skip (tag : GoString)
    (hno : ∀ part ∈ strings.Fields (strings.Trim tag backtick),
      ¬ "constructor:".toList <+: part) :
    (parseFieldSkipTags tag).2.1 = false
      ∧ (parseFieldSkipTags tag).2.2 = false
      ∧ ((parseFieldSkipTags tag).1 = true
          ↔ ∃ part ∈ strings.Fields (strings.Trim tag backtick),
              ∃ key ∈ ["newc:".toList, "gonstructor:".toList],
                ∃ rest, part = key ++ rest ∧ strings.Trim rest dquote = "-".toList)
      ∧ parseFieldSkipTags (rawTag "newc:\"getter:false\"".toList) = (false, false, false)
      ∧ parseFieldSkipTags (rawTag "newc:\"value\"".toList) = (false, false, false) := by
  have hpre : ∀ part ∈ tagParts tag, strings.HasPrefix part keyConstructor = false := by
    intro part hpart
    rw [Bool.eq_false_iff]
    intro h
    exact hno part hpart ((hasPrefix_iff _ _).1 h)
  refine ⟨?_, ?_, ?_, by decide, by decide⟩
  · rw [parseFieldSkipTags_eq, Bool.eq_false_iff]
    simp only [ne_eq, List.any_eq_true, not_exists, not_and]
    intro part hpart
    simp [setsSkipGetter, hpre part hpart]
  · rw [parseFieldSkipTags_eq, Bool.eq_false_iff]
    simp only [ne_eq, List.any_eq_true, not_exists, not_and]
    intro part hpart
    simp [setsSkipSetter, hpre part hpart]
  · rw [parseFieldSkipTags_eq]
    simp only [List.any_eq_true]
    constructor
    · rintro ⟨part, hpart, hset⟩
      obtain ⟨key, hkey, rest, hrest, hval⟩ := (setsSkip_iff part).1 hset
      refine ⟨part, hpart, key, ?_, rest, hrest, hval⟩
      simp only [List.mem_cons, List.mem_singleton, List.not_mem_nil, or_false] at hkey ⊢
      rcases hkey with hk | hk | hk
      · exfalso
        apply hno part hpart
        rw [hrest, hk]
        exact List.prefix_append _ _
      · exact Or.inl hk
      · exact Or.inr hk
    · rintro ⟨part, hpart, key, hkey, rest, hrest, hval⟩
      refine ⟨part, hpart, (setsSkip_iff part).2 ⟨key, ?_, rest, hrest, hval⟩⟩
      simp only [List.mem_cons, List.mem_singleton, List.not_mem_nil, or_false] at hkey ⊢
      rcases hkey with hk | hk
      · exact Or.inr (Or.inl hk)
      · exact Or.inr (Or.inr hk)

/-- Witness of C9 on the tag `json:"name" newc:"-"`. -/
theorem legacy_keys_only_full_skip_witness :
    (parseFieldSkipTags (rawTag "json:\"name\" newc:\"-\"".toList)).2.1 = false
      ∧ (parseFieldSkipTags (rawTag "json:\"name\" newc:\"-\"".toList)).2.2 = false :=
  ⟨(legacy_keys_only_full_skip (rawTag "json:\"name\" newc:\"-\"".toList) (by decide)).1,
   (legacy_keys_only_full_skip (rawTag "json:\"name\" newc:\"-\"".toList) (by decide)).2.1⟩

/-- C10: `parseFieldSkipTags` is a total function, so it returns a triple for
every string; the triple is `(false, false, false)` for every tag none of whose
tokens starts with `constructor:`, `newc:` or `gonstructor:`, for the empty
string, and for `json:"name"`. -/
theorem no_directive_all_false (tag : GoString)
    (hno : ∀ part ∈ strings.Fields (strings.Trim tag backtick),
      ∀ key ∈ ["constructor:".toList, "newc:".toList, "gonstructor:".toList],
        ¬ key <+: part) :
    parseFieldSkipTags tag = (false, false, false)
      ∧ parseFieldSkipTags [] = (false, false, false)
      ∧ parseFieldSkipTags (rawTag "json:\"name\"".toList) = (false, false, false)
      ∧ ∀ t : GoString, ∃ r : Bool × Bool × Bool, parseFieldSkipTags t = r := by
  refine ⟨?_, by decide, by decide, fun t => ⟨_, rfl⟩⟩
  have hC : ∀ part ∈ tagParts tag, strings.HasPrefix part keyConstructor = false := by
    intro part hpart
    rw [Bool.eq_false_iff]
    intro h
    exact hno part hpart keyConstructor (by simp [keyConstructor]) ((hasPrefix_iff _ _).1 h)
  have hN : ∀ part ∈ tagParts tag, strings.HasPrefix part keyNewc = false := by
    intro part hpart
    rw [Bool.eq_false_iff]
    intro h
    exact hno part hpart keyNewc (by simp [keyNewc]) ((hasPrefix_iff _ _).1 h)
  have hG : ∀ part ∈ tagParts tag, strings.HasPrefix part keyGonstructor = false := by
    intro part hpart
    rw [Bool.eq_false_iff]
    intro h
    exact hno part hpart keyGonstructor (by simp [keyGonstructor]) ((hasPrefix_iff _ _).1 h)
  have h1 : (tagParts tag).any setsSkip = false := by
    rw [Bool.eq_false_iff]
    simp only [ne_eq, List.any_eq_true, not_exists, not_and]
    intro part hpart
    simp [setsSkip, hC part hpart, hN part hpart, hG part hpart]
  have h2 : (tagParts tag).any setsSkipGetter = false := by
    rw [Bool.eq_false_iff]
    simp only [ne_eq, List.any_eq_true, not_exists, not_and]
    intro part hpart
    simp [setsSkipGetter, hC part hpart]
  have h3 : (tagParts tag).any setsSkipSetter = false := by
    rw [Bool.eq_false_iff]
    simp only [ne_eq, List.any_eq_true, not_exists, not_and]
    intro part hpart
    simp [setsSkipSetter, hC part hpart]
  rw [parseFieldSkipTags_eq, h1, h2, h3]

/-- Witness of C10 on the tag `json:"name" xml:"n"`. -/
theorem no_directive_all_false_witness :
    parseFieldSkipTags (rawTag "json:\"name\" xml:\"n\"".toList) = (false, false, false) :=
  (no_directive_all_false (rawTag "json:\"name\" xml:\"n\"".toList) (by decide)).1

/-! ## From the raw tag to the views -/

/-- The flags of a field built by `newFieldInfo` are the components of
`parseFieldSkipTags` on its tag. -/
theorem newFieldInfo_flags (name fieldType tag : GoString) (exported : Bool) :
    (newFieldInfo name fieldType tag exported).Skip = (parseFieldSkipTags tag).1
      ∧ (newFieldInfo name fieldType tag exported).SkipGetter = (parseFieldSkipTags tag).2.1
      ∧ (newFieldInfo name fieldType tag exported).SkipSetter = (parseFieldSkipTags tag).2.2
      ∧ (newFieldInfo name fieldType tag exported).Exported = exported :=
  ⟨rfl, rfl, rfl, rfl⟩

/-- C4: a private field of `s` built from its raw tag as `ParseStruct` builds
it is in both views when it has no tag, in the constructor view only when its
tag is `constructor:"getter:false"`, in the getter view only when its tag is
`constructor:"setter:false"`, and in neither view when its tag is
`constructor:"-"`; the tag is the raw text, with or without its backticks. -/
theorem private_field_views (s : StructInfo) (name fieldType tag : GoString)
    (hmem : newFieldInfo name fieldType tag false ∈ s.Fields) :
    (tag = [] →
        newFieldInfo name fieldType tag false ∈ s.GetFieldsForConstructor
          ∧ newFieldInfo name fieldType tag false ∈ s.GetFieldsForGetter)
      ∧ (tag = rawTag "constructor:\"getter:false\"".toList
            ∨ tag = "constructor:\"getter:false\"".toList →
          newFieldInfo name fieldType tag false ∈ s.GetFieldsForConstructor
            ∧ newFieldInfo name fieldType tag false ∉ s.GetFieldsForGetter)
      ∧ (tag = rawTag "constructor:\"setter:false\"".toList
            ∨ tag = "constructor:\"setter:false\"".toList →
          newFieldInfo name fieldType tag false ∉ s.GetFieldsForConstructor
            ∧ newFieldInfo name fieldType tag false ∈ s.GetFieldsForGetter)
      ∧ (tag = rawTag "constructor:\"-\"".toList ∨ tag = "constructor:\"-\"".toList →
          newFieldInfo name fieldType tag false ∉ s.GetFieldsForConstructor
            ∧ newFieldInfo name fieldType tag false ∉ s.GetFieldsForGetter) := by
  obtain ⟨h1, h2, h3, h4⟩ := newFieldInfo_flags name fieldType tag false
  rw [mem_getFieldsForConstructor, mem_getFieldsForGetter, h1, h2, h3, h4]
  refine ⟨?_, ?_, ?_, ?_⟩
  · intro h
    have hp : parseFieldSkipTags tag = (false, false, false) := by rw [h]; decide
    rw [hp]
    exact ⟨⟨hmem, rfl, rfl⟩, ⟨hmem, rfl, rfl, rfl⟩⟩
  · intro h
    have hp : parseFieldSkipTags tag = (false, true, false) := by
      rcases h with h | h <;> (rw [h]; decide)
    rw [hp]
    exact ⟨⟨hmem, rfl, rfl⟩, fun hg => Bool.noConfusion hg.2.2.1⟩
  · intro h
    have hp : parseFieldSkipTags tag = (false, false, true) := by
      rcases h with h | h <;> (rw [h]; decide)
    rw [hp]
    exact ⟨fun hc => Bool.noConfusion hc.2.2, ⟨hmem, rfl, rfl, rfl⟩⟩
  · intro h
    have hp : parseFieldSkipTags tag = (true, false, false) := by
      rcases h with h | h <;> (rw [h]; decide)
    rw [hp]
    exact ⟨fun hc => Bool.noConfusion hc.2.1, fun hg => Bool.noConfusion hg.2.1⟩

/-- Witness of C4 on the field `password` of `Repository`, whose tag is
`constructor:"getter:false"`. -/
theorem private_field_views_witness :
    newFieldInfo "password".toList "string".toList
        (rawTag "constructor:\"getter:false\"".toList) false ∈ repositoryInfo.Fields
      ∧ newFieldInfo "password".toList "string".toList
          (rawTag "constructor:\"getter:false\"".toList) false
            ∈ repositoryInfo.GetFieldsForConstructor
      ∧ newFieldInfo "password".toList "string".toList
          (rawTag "constructor:\"getter:false\"".toList) false
            ∉ repositoryInfo.GetFieldsForGetter :=
  ⟨by decide,
   (private_field_views repositoryInfo "password".toList "string".toList
      (rawTag "constructor:\"getter:false\"".toList) (by decide)).2.1 (Or.inl rfl)⟩

/-! ## Flags and views -/

/-- C13, counterexample: the exported field `Count` has `SkipSetter = true`,
`Skip = false` and `SkipGetter = false`, and is absent from the getter view. -/
theorem exported_setter_skipped_counterexample :
    newFieldInfo "Count".toList "int".toList (rawTag "constructor:\"setter:false\"".toList) true
        ∈ exportedCounterInfo.Fields
      ∧ (newFieldInfo "Count".toList "int".toList
          (rawTag "constructor:\"setter:false\"".toList) true).SkipSetter = true
      ∧ (newFieldInfo "Count".toList "int".toList
          (rawTag "constructor:\"setter:false\"".toList) true).Skip = false
      ∧ (newFieldInfo "Count".toList "int".toList
          (rawTag "constructor:\"setter:false\"".toList) true).SkipGetter = false
      ∧ newFieldInfo "Count".toList "int".toList
          (rawTag "constructor:\"setter:false\"".toList) true
            ∉ exportedCounterInfo.GetFieldsForGetter := by
  decide

/-- C13, amended: a field of `s` with `SkipSetter = true` and `Skip = false` is
absent from the constructor view, and when moreover `SkipGetter = false` and
the field is not exported it is present in the getter view. -/
theorem setter_skipped_field_views (s : StructInfo) (f : FieldInfo) (hf : f ∈ s.Fields)
    (hsetter : f.SkipSetter = true) (hskip : f.Skip = false) :
    f ∉ s.GetFieldsForConstructor
      ∧ (f.SkipGetter = false → f.Exported = false → f ∈ s.GetFieldsForGetter) := by
  constructor
  · intro h
    have := ((mem_getFieldsForConstructor s f).1 h).2.2
    rw [hsetter] at this
    exact Bool.noConfusion this
  · intro hg he
    exact (mem_getFieldsForGetter s f).2 ⟨hf, hskip, hg, he⟩

/-- Witness of the amended C13 on the field `poolSize` of `Database`. -/
theorem setter_skipped_field_views_witness :
    newFieldInfo "poolSize".toList "int".toList
        (rawTag "constructor:\"setter:false\"".toList) false ∉ databaseInfo.GetFieldsForConstructor
      ∧ newFieldInfo "poolSize".toList "int".toList
          (rawTag "constructor:\"setter:false\"".toList) false ∈ databaseInfo.GetFieldsForGetter :=
  ⟨(setter_skipped_field_views databaseInfo
      (newFieldInfo "poolSize".toList "int".toList
        (rawTag "constructor:\"setter:false\"".toList) false)
      (by decide) (by decide) (by decide)).1,
   (setter_skipped_field_views databaseInfo
      (newFieldInfo "poolSize".toList "int".toList
        (rawTag "constructor:\"setter:false\"".toList) false)
      (by decide) (by decide) (by decide)).2 (by decide) (by decide)⟩

/-- The constructor filter keeps related lists related. -/
theorem forall₂_filter_constructor (l₁ l₂ : List FieldInfo)
    (h : List.Forall₂ sameButAccess l₁ l₂) :
    List.Forall₂ sameButAccess (l₁.filter (fun f => !f.Skip && !f.SkipSetter))
      (l₂.filter (fun f => !f.Skip && !f.SkipSetter)) := by
  induction h with
  | nil => exact List.Forall₂.nil
  | @cons a b l₁ l₂ hab _ ih =>
    have hsel : (!a.Skip && !a.SkipSetter) = (!b.Skip && !b.SkipSetter) := by
      rw [hab.2.2.2.1, hab.2.2.2.2]
    by_cases hb : (!b.Skip && !b.SkipSetter) = true
    · have ha : (!a.Skip && !a.SkipSetter) = true := hsel.trans hb
      simp only [List.filter_cons, ha, hb, if_true]
      exact List.Forall₂.cons hab ih
    · have ha : ¬ (!a.Skip && !a.SkipSetter) = true := fun h' => hb (hsel.symm.trans h')
      simp only [List.filter_cons, ha, hb, if_false]
      exact ih

/-- C14: when the field lists of `s₁` and `s₂` differ only in the `Exported`
and `SkipGetter` values of their fields, `GetFieldsForConstructor` selects the
same positions of both and the selected fields correspond one to one; a field
with `Skip = SkipSetter = false` is a constructor field whatever its
`SkipGetter` and `Exported` values. -/
theorem constructor_view_ignores_access (s₁ s₂ : StructInfo)
    (h : List.Forall₂ sameButAccess s₁.Fields s₂.Fields) :
    (∀ (i : Nat) (h₁ : i < s₁.Fields.length) (h₂ : i < s₂.Fields.length),
        (s₁.Fields.get ⟨i, h₁⟩ ∈ s₁.GetFieldsForConstructor
          ↔ s₂.Fields.get ⟨i, h₂⟩ ∈ s₂.GetFieldsForConstructor))
      ∧ List.Forall₂ sameButAccess s₁.GetFieldsForConstructor s₂.GetFieldsForConstructor
      ∧ (∀ f ∈ s₁.Fields, f.Skip = false → f.SkipSetter = false →
          f ∈ s₁.GetFieldsForConstructor) := by
  refine ⟨?_, ?_, ?_⟩
  · intro i h₁ h₂
    have hrel : sameButAccess (s₁.Fields.get ⟨i, h₁⟩) (s₂.Fields.get ⟨i, h₂⟩) :=
      List.Forall₂.get h h₁ h₂
    rw [mem_getFieldsForConstructor, mem_getFieldsForConstructor, hrel.2.2.2.1, hrel.2.2.2.2]
    constructor
    · rintro ⟨_, hs, hss⟩
      exact ⟨List.get_mem _ _ _, hs, hss⟩
    · rintro ⟨_, hs, hss⟩
      exact ⟨List.get_mem _ _ _, hs, hss⟩
  · have e₁ : s₁.GetFieldsForConstructor
        = s₁.Fields.filter (fun f => !f.Skip && !f.SkipSetter) := by
      unfold StructInfo.GetFieldsForConstructor
      rw [foldl_append_select (fun f : FieldInfo => !f.Skip && !f.SkipSetter)]
      simp
    have e₂ : s₂.GetFieldsForConstructor
        = s₂.Fields.filter (fun f => !f.Skip && !f.SkipSetter) := by
      unfold StructInfo.GetFieldsForConstructor
      rw [foldl_append_select (fun f : FieldInfo => !f.Skip && !f.SkipSetter)]
      simp
    rw [e₁, e₂]
    exact forall₂_filter_constructor _ _ h
  · intro f hf hs hss
    exact (mem_getFieldsForConstructor s₁ f).2 ⟨hf, hs, hss⟩

/-- Witness of C14 on `databaseInfo` and `databaseInfoVariant`. -/
theorem constructor_view_ignores_access_witness :
    List.Forall₂ sameButAccess databaseInfo.GetFieldsForConstructor
      databaseInfoVariant.GetFieldsForConstructor :=
  (constructor_view_ignores_access databaseInfo databaseInfoVariant
    (List.Forall₂.cons ⟨rfl, rfl, rfl, rfl, rfl⟩
      (List.Forall₂.cons ⟨rfl, rfl, rfl, rfl, rfl⟩ List.Forall₂.nil))).2.1

/-! ## Joining two tags -/

/-- Dropping leading characters that satisfy `p` leaves a list unchanged when
none of its characters satisfies `p`. -/
theorem dropWhile_eq_self (p : Char → Bool) (l : List Char) (h : ∀ c ∈ l, p c = false) :
    l.dropWhile p = l := by
  cases l with
  | nil => rfl
  | cons x xs => simp [List.dropWhile_cons, h x (List.mem_cons_self x xs)]

/-- The function `Trim` leaves a string unchanged when it holds no character of the cutset. -/
theorem trim_eq_self (l cutset : GoString) (h : ∀ c ∈ l, cutset.contains c = false) :
    strings.Trim l cutset = l := by
  unfold strings.Trim strings.TrimLeft strings.TrimRight
  rw [dropWhile_eq_self _ l.reverse (by simpa using h), List.reverse_reverse,
    dropWhile_eq_self _ l h]

/-- A string without backtick has no character of the backtick cutset. -/
theorem backtick_free (l : GoString) (h : ∀ c ∈ l, c ≠ Char.ofNat 96) :
    ∀ c ∈ l, backtick.contains c = false := by
  intro c hc
  have := h c hc
  simp [backtick, this]

/-- The scan of `a`, a space, then `b` yields the fields of `a` followed by those of `b`. -/
theorem fieldsAux_append_space (a b cur : List Char) :
    strings.fieldsAux (a ++ ' ' :: b) cur = strings.fieldsAux a cur ++ strings.fieldsAux b [] := by
  induction a generalizing cur with
  | nil =>
    have hsp : unicode.IsSpace ' ' = true := by decide
    simp only [List.nil_append, strings.fieldsAux, hsp, if_true]
    split_ifs <;> simp
  | cons c cs ih =>
    simp only [List.cons_append, strings.fieldsAux]
    split_ifs <;> simp [ih]

/-- The tokens of two backtick-free tags joined by a space are the tokens of
the first followed by those of the second. -/
theorem tagParts_join (a b : GoString) (ha : ∀ c ∈ a, c ≠ Char.ofNat 96)
    (hb : ∀ c ∈ b, c ≠ Char.ofNat 96) :
    tagParts (a ++ " ".toList ++ b) = tagParts a ++ tagParts b := by
  have hab : ∀ c ∈ a ++ " ".toList ++ b, c ≠ Char.ofNat 96 := by
    intro c hc
    simp only [List.mem_append] at hc
    rcases hc with (hc | hc) | hc
    · exact ha c hc
    · have hsp : c = ' ' := by simpa using hc
      rw [hsp]
      decide
    · exact hb c hc
  unfold tagParts
  rw [trim_eq_self _ _ (backtick_free _ hab), trim_eq_self _ _ (backtick_free _ ha),
    trim_eq_self _ _ (backtick_free _ hb)]
  unfold strings.Fields
  have : a ++ " ".toList ++ b = a ++ ' ' :: b := by simp
  rw [this, fieldsAux_append_space]

/-- Whether some element of a list satisfies `p` does not depend on the order
of the list. -/
theorem any_perm {α : Type} (p : α → Bool) (l₁ l₂ : List α) (h : l₁.Perm l₂) :
    l₁.any p = l₂.any p := by
  induction h with
  | nil => rfl
  | cons x _ ih => simp [List.any_cons, ih]
  | swap x y l => simp [List.any_cons, Bool.or_left_comm]
  | trans _ _ ih₁ ih₂ => exact ih₁.trans ih₂

/-- C11: for backtick-free `a` and `b`, `parseFieldSkipTags (a + " " + b)` is
the component-wise or of `parseFieldSkipTags a` and `parseFieldSkipTags b`;
each flag of `a` that is set stays set, the result is the same for
`b + " " + a`, and two tags whose token lists are permutations of each other
give the same result. -/
theorem parseFieldSkipTags_join (a b : GoString) (ha : ∀ c ∈ a, c ≠ Char.ofNat 96)
    (hb : ∀ c ∈ b, c ≠ Char.ofNat 96) :
    parseFieldSkipTags (a ++ " ".toList ++ b)
        = ((parseFieldSkipTags a).1 || (parseFieldSkipTags b).1,
            (parseFieldSkipTags a).2.1 || (parseFieldSkipTags b).2.1,
            (parseFieldSkipTags a).2.2 || (parseFieldSkipTags b).2.2)
      ∧ ((parseFieldSkipTags a).1 = true → (parseFieldSkipTags (a ++ " ".toList ++ b)).1 = true)
      ∧ ((parseFieldSkipTags a).2.1 = true
          → (parseFieldSkipTags (a ++ " ".toList ++ b)).2.1 = true)
      ∧ ((parseFieldSkipTags a).2.2 = true
          → (parseFieldSkipTags (a ++ " ".toList ++ b)).2.2 = true)
      ∧ parseFieldSkipTags (a ++ " ".toList ++ b) = parseFieldSkipTags (b ++ " ".toList ++ a)
      ∧ ∀ t₁ t₂ : GoString,
          (strings.Fields (strings.Trim t₁ backtick)).Perm
              (strings.Fields (strings.Trim t₂ backtick)) →
            parseFieldSkipTags t₁ = parseFieldSkipTags t₂ := by
  have hor : parseFieldSkipTags (a ++ " ".toList ++ b)
      = ((parseFieldSkipTags a).1 || (parseFieldSkipTags b).1,
          (parseFieldSkipTags a).2.1 || (parseFieldSkipTags b).2.1,
          (parseFieldSkipTags a).2.2 || (parseFieldSkipTags b).2.2) := by
    rw [parseFieldSkipTags_eq (a ++ " ".toList ++ b), parseFieldSkipTags_eq a,
      parseFieldSkipTags_eq b, tagParts_join a b ha hb]
    simp only [List.any_append]
  have hor' : parseFieldSkipTags (b ++ " ".toList ++ a)
      = ((parseFieldSkipTags b).1 || (parseFieldSkipTags a).1,
          (parseFieldSkipTags b).2.1 || (parseFieldSkipTags a).2.1,
          (parseFieldSkipTags b).2.2 || (parseFieldSkipTags a).2.2) := by
    rw [parseFieldSkipTags_eq (b ++ " ".toList ++ a), parseFieldSkipTags_eq a,
      parseFieldSkipTags_eq b, tagParts_join b a hb ha]
    simp only [List.any_append]
  refine ⟨hor, ?_, ?_, ?_, ?_, ?_⟩
  · intro h
    rw [hor]
    simp [h]
  · intro h
    rw [hor]
    simp [h]
  · intro h
    rw [hor]
    simp [h]
  · rw [hor, hor']
    simp only [Bool.or_comm]
  · intro t₁ t₂ hperm
    have hperm' : (tagParts t₁).Perm (tagParts t₂) := hperm
    rw [parseFieldSkipTags_eq t₁, parseFieldSkipTags_eq t₂, any_perm _ _ _ hperm',
      any_perm setsSkipGetter _ _ hperm', any_perm setsSkipSetter _ _ hperm']

/-- Witness of C11 on `json:"name" constructor:"getter:false"` and `newc:"-"`. -/
theorem parseFieldSkipTags_join_witness :
    parseFieldSkipTags
        ("json:\"name\" constructor:\"getter:false\"".toList ++ " ".toList ++ "newc:\"-\"".toList)
      = ((parseFieldSkipTags "json:\"name\" constructor:\"getter:false\"".toList).1
            || (parseFieldSkipTags "newc:\"-\"".toList).1,
          (parseFieldSkipTags "json:\"name\" constructor:\"getter:false\"".toList).2.1
            || (parseFieldSkipTags "newc:\"-\"".toList).2.1,
          (parseFieldSkipTags "json:\"name\" constructor:\"getter:false\"".toList).2.2
            || (parseFieldSkipTags "newc:\"-\"".toList).2.2) :=
  (parseFieldSkipTags_join "json:\"name\" constructor:\"getter:false\"".toList
    "newc:\"-\"".toList (by decide) (by decide)).1

/-! ## The spelling of the key -/

/-- C12, counterexample: on the tags `construction:"-"`,
`construction:"getter:false"` and `construction:"setter:false"`, each the only
token of its tag, `parseFieldSkipTags` returns all flags false. -/
theorem construction_key_counterexample :
    "construction:\"-\"".toList
        ∈ strings.Fields (strings.Trim (rawTag "construction:\"-\"".toList) backtick)
      ∧ (parseFieldSkipTags (rawTag "construction:\"-\"".toList)).1 = false
      ∧ (parseFieldSkipTags (rawTag "construction:\"getter:false\"".toList)).2.1 = false
      ∧ (parseFieldSkipTags (rawTag "construction:\"setter:false\"".toList)).2.2 = false := by
  decide

/-- C12, amended: the key is spelled `constructor:`; a tag holding the token
`constructor:"-"` gives `skip = true`, one holding `constructor:"getter:false"`
gives `skipGetter = true`, and one holding `constructor:"setter:false"` gives
`skipSetter = true`. -/
theorem constructor_key_tokens (tag part : GoString)
    (hpart : part ∈ strings.Fields (strings.Trim tag backtick)) :
    (part = "constructor:\"-\"".toList → (parseFieldSkipTags tag).1 = true)
      ∧ (part = "constructor:\"getter:false\"".toList → (parseFieldSkipTags tag).2.1 = true)
      ∧ (part = "constructor:\"setter:false\"".toList → (parseFieldSkipTags tag).2.2 = true) := by
  have hpart' : part ∈ tagParts tag := hpart
  rw [parseFieldSkipTags_eq]
  simp only [List.any_eq_true]
  refine ⟨?_, ?_, ?_⟩
  · intro h
    exact ⟨part, hpart', by rw [h]; decide⟩
  · intro h
    exact ⟨part, hpart', by rw [h]; decide⟩
  · intro h
    exact ⟨part, hpart', by rw [h]; decide⟩

/-- Witness of the amended C12 on the tag `json:"name" constructor:"-"`. -/
theorem constructor_key_tokens_witness :
    (parseFieldSkipTags (rawTag "json:\"name\" constructor:\"-\"".toList)).1 = true :=
  (constructor_key_tokens (rawTag "json:\"name\" constructor:\"-\"".toList)
    "constructor:\"-\"".toList (by decide)).1 rfl

/-! ## The spelling of types -/

/-- C17: on a type expression built from identifiers, pointers, slices, arrays
with a literal length, maps, channels, qualified names and the empty
interface, `exprToString` returns the Go source spelling, composed as `*`+X,
`[]`+Elt, `[`+Len+`]`+Elt, `map[`+Key+`]`+Value, `chan `+V, `chan<- `+V,
`<-chan `+V, X+`.`+Sel and `interface{}`; it gives `[5]int`, `map[string]int`
and `time.Time`. -/
theorem exprToString_spelling :
    (∀ t : TypeSyntax, exprToString t.toExpr = Except.ok t.spelling)
      ∧ exprToString
          (ast.Expr.ArrayType (some (ast.Expr.BasicLit "5".toList)) (ast.Expr.Ident "int".toList))
          = Except.ok "[5]int".toList
      ∧ exprToString
          (ast.Expr.MapType (ast.Expr.Ident "string".toList) (ast.Expr.Ident "int".toList))
          = Except.ok "map[string]int".toList
      ∧ exprToString (ast.Expr.SelectorExpr (ast.Expr.Ident "time".toList) "Time".toList)
          = Except.ok "time.Time".toList := by
  refine ⟨?_, rfl, rfl, rfl⟩
  intro t
  induction t with
  | ident name => rfl
  | pointer x ih => simp [TypeSyntax.toExpr, TypeSyntax.spelling, exprToString, ih, Except.map]
  | slice elt ih => simp [TypeSyntax.toExpr, TypeSyntax.spelling, exprToString, ih, Except.map]
  | array len elt ih =>
    simp [TypeSyntax.toExpr, TypeSyntax.spelling, exprToString, ih, Except.map, Except.bind]
  | map key value ihk ihv =>
    simp [TypeSyntax.toExpr, TypeSyntax.spelling, exprToString, ihk, ihv, Except.map, Except.bind]
  | chan value ih =>
    have h1 : ¬ (ast.SEND ||| ast.RECV = ast.SEND) := by decide
    have h2 : ¬ (ast.SEND ||| ast.RECV = ast.RECV) := by decide
    simp only [TypeSyntax.toExpr, TypeSyntax.spelling, exprToString, ih, h1, h2, if_false,
      Except.map]
  | chanSend value ih =>
    simp only [TypeSyntax.toExpr, TypeSyntax.spelling, exprToString, ih, if_true, Except.map]
  | chanRecv value ih =>
    have h1 : ¬ (ast.RECV = ast.SEND) := by decide
    simp only [TypeSyntax.toExpr, TypeSyntax.spelling, exprToString, ih, h1, if_false, if_true,
      Except.map]
  | qualified x sel ih =>
    simp [TypeSyntax.toExpr, TypeSyntax.spelling, exprToString, ih, Except.map]
  | emptyInterface => rfl

/-! ## The fields recorded by `ParseStruct` -/

/-- A loop that appends one entry per name computes the start followed by the
mapped names. -/
theorem foldl_append_map {α β : Type} (g : α → β) (names : List α) (init : List β) :
    names.foldl (fun acc name => acc ++ [g name]) init = init ++ names.map g := by
  induction names generalizing init with
  | nil => simp
  | cons x xs ih => simp [List.foldl_cons, ih]

/-- The spelling of a type expression for which `exprToString` returns is the
returned string. -/
theorem spelledType_eq (type : ast.Expr) (spelling : GoString)
    (h : exprToString type = Except.ok spelling) : spelledType type = spelling := by
  simp [spelledType, h]

/-- One pass of the field loop appends the entries of that field when
`exprToString` returns for its type. -/
theorem appendField_eq (u : unicode.CaseTables) (acc : List FieldInfo) (field : ast.Field)
    (spelling : GoString) (h : exprToString field.Type_ = Except.ok spelling) :
    appendField u acc field = Except.ok (acc ++ fieldEntries u field) := by
  obtain ⟨names, type, tag⟩ := field
  have h' : exprToString type = Except.ok spelling := h
  unfold appendField fieldEntries
  simp only [ast.Field.Type_, ast.Field.Names, ast.Field.Tag, h', spelledType]
  by_cases hn : names = []
  · cases tag <;> simp [hn]
  · have hlen : ¬ names.length = 0 := by
      intro h
      exact hn (List.eq_nil_of_length_eq_zero h)
    simp only [hlen, hn, if_false]
    rw [foldl_append_map]
    cases tag <;> rfl

/-- One pass of the field loop ends in the panic of `exprToString`, if any. -/
theorem appendField_error (u : unicode.CaseTables) (acc : List FieldInfo) (field : ast.Field)
    (failure : Failure) (h : exprToString field.Type_ = Except.error failure) :
    appendField u acc field = Except.error failure := by
  simp [appendField, h]

/-- A pass of the field loop that returns has appended the entries of the
field, and `exprToString` has returned for its type. -/
theorem appendField_ok (u : unicode.CaseTables) (acc recorded : List FieldInfo)
    (field : ast.Field) (h : appendField u acc field = Except.ok recorded) :
    (∃ spelling, exprToString field.Type_ = Except.ok spelling)
      ∧ recorded = acc ++ fieldEntries u field := by
  cases hs : exprToString field.Type_ with
  | error failure =>
    rw [appendField_error u acc field failure hs] at h
    cases h
  | ok spelling =>
    rw [appendField_eq u acc field spelling hs] at h
    cases h
    exact ⟨⟨spelling, rfl⟩, rfl⟩

/-- A field loop that returns has appended the entries of all fields, in
order, and `exprToString` has returned for the type of each. -/
theorem appendFields_ok (u : unicode.CaseTables) (fields : List ast.Field)
    (acc recorded : List FieldInfo) (h : appendFields u acc fields = Except.ok recorded) :
    recorded = acc ++ fields.flatMap (fieldEntries u)
      ∧ ∀ field ∈ fields, ∃ spelling, exprToString field.Type_ = Except.ok spelling := by
  induction fields generalizing acc with
  | nil =>
    simp only [appendFields] at h
    cases h
    simp
  | cons f fs ih =>
    simp only [appendFields] at h
    cases hf : appendField u acc f with
    | error failure => simp [hf] at h
    | ok step =>
      simp only [hf] at h
      obtain ⟨hspell, rfl⟩ := appendField_ok u acc step f hf
      obtain ⟨hrec, hall⟩ := ih _ h
      refine ⟨?_, ?_⟩
      · rw [hrec, List.flatMap_cons, List.append_assoc]
      · intro field hmem
        rcases List.mem_cons.1 hmem with rfl | hmem
        · exact hspell
        · exact hall field hmem

/-- The field loop returns when `exprToString` returns for the type of every
field. -/
theorem appendFields_returns (u : unicode.CaseTables) (fields : List ast.Field)
    (acc : List FieldInfo)
    (h : ∀ field ∈ fields, ∃ spelling, exprToString field.Type_ = Except.ok spelling) :
    appendFields u acc fields = Except.ok (acc ++ fields.flatMap (fieldEntries u)) := by
  induction fields generalizing acc with
  | nil => simp [appendFields]
  | cons f fs ih =>
    obtain ⟨spelling, hs⟩ := h f (List.mem_cons_self _ _)
    simp only [appendFields, appendField_eq u acc f spelling hs]
    rw [ih _ (fun field hmem => h field (List.mem_cons_of_mem _ hmem)), List.flatMap_cons,
      List.append_assoc]

/-- A record built for a struct declaration has the requested name, the
package name and the entries of the fields, and `exprToString` has returned
for the type of each field. -/
theorem newStructInfo_ok (u : unicode.CaseTables) (pkg structName : GoString)
    (fields : List ast.Field) (info : StructInfo)
    (h : newStructInfo u pkg structName fields = Except.ok info) :
    info = StructInfo.mk structName (fields.flatMap (fieldEntries u)) pkg
      ∧ ∀ field ∈ fields, ∃ spelling, exprToString field.Type_ = Except.ok spelling := by
  unfold newStructInfo at h
  cases hf : appendFields u [] fields with
  | error failure => simp [hf] at h
  | ok recorded =>
    simp only [hf] at h
    cases h
    obtain ⟨hrec, hall⟩ := appendFields_ok u fields [] recorded hf
    refine ⟨?_, hall⟩
    rw [hrec, List.nil_append]

/-- The fields of the record built for a struct declaration are the entries of
its fields, so each comes from one of them. -/
theorem mem_newStructInfo_fields (u : unicode.CaseTables) (pkg structName : GoString)
    (fields : List ast.Field) (info : StructInfo)
    (h : newStructInfo u pkg structName fields = Except.ok info) (f : FieldInfo) :
    f ∈ info.Fields ↔ ∃ field ∈ fields, f ∈ fieldEntries u field := by
  rw [(newStructInfo_ok u pkg structName fields info h).1]
  simp [List.mem_flatMap]

/-! ## The walk of `ParseStruct` -/

mutual
/-- A walk below a node that returns either leaves the variable as it was or
assigns it the record built for a struct declaration with the requested name
at or below the node. -/
theorem inspectNode_cases (u : unicode.CaseTables) (pkg structName : GoString) :
    ∀ (n : ast.Node) (st captured : Option StructInfo),
      inspectNode u pkg structName n st = Except.ok captured →
      captured = st
        ∨ ∃ fields ∈ structDecls structName n, ∃ info,
            newStructInfo u pkg structName fields = Except.ok info ∧ captured = some info
  | ast.Node.TypeSpec name type children, st, captured => by
    have ih := inspectNodes_cases u pkg structName children st captured
    intro h
    by_cases hname : name = structName
    · cases type with
      | StructType fields =>
        simp only [inspectNode, hname, ne_eq, not_true_eq_false, if_false] at h
        cases hn : newStructInfo u pkg structName fields with
        | error failure => simp [hn] at h
        | ok info =>
          simp only [hn] at h
          cases h
          exact Or.inr ⟨fields, by simp [structDecls, hname], info, hn, rfl⟩
      | _ =>
        simp only [inspectNode, structDecls, hname, ne_eq, not_true_eq_false, if_false,
          if_true, List.nil_append] at h ⊢
        exact ih h
    · simp only [inspectNode, structDecls, hname, ne_eq, not_false_eq_true, if_true, if_false,
        List.nil_append] at h ⊢
      exact ih h
  | ast.Node.Other children, st, captured => by
    simp only [inspectNode, structDecls]
    exact inspectNodes_cases u pkg structName children st captured
/-- The same for the walk over a list of nodes. -/
theorem inspectNodes_cases (u : unicode.CaseTables) (pkg structName : GoString) :
    ∀ (ns : List ast.Node) (st captured : Option StructInfo),
      inspectNodes u pkg structName ns st = Except.ok captured →
      captured = st
        ∨ ∃ fields ∈ structDeclsOfNodes structName ns, ∃ info,
            newStructInfo u pkg structName fields = Except.ok info ∧ captured = some info
  | [], st, captured => by
    intro h
    simp only [inspectNodes] at h
    cases h
    exact Or.inl rfl
  | n :: ns, st, captured => by
    intro h
    simp only [inspectNodes] at h
    cases hn : inspectNode u pkg structName n st with
    | error failure => simp [hn] at h
    | ok mid =>
      simp only [hn] at h
      simp only [structDeclsOfNodes, List.mem_append]
      rcases inspectNodes_cases u pkg structName ns mid captured h with
        h1 | ⟨fields, hmem, info, hinfo, hcap⟩
      · subst h1
        rcases inspectNode_cases u pkg structName n st captured hn with
          h2 | ⟨fields, hmem, info, hinfo, hcap⟩
        · exact Or.inl h2
        · exact Or.inr ⟨fields, Or.inl hmem, info, hinfo, hcap⟩
      · exact Or.inr ⟨fields, Or.inr hmem, info, hinfo, hcap⟩
end

/-- A `StructInfo` returned by `ParseStruct` is the record built for a struct
declaration with the requested name in the file. -/
theorem parseStruct_ok (u : unicode.CaseTables)
    (parseFile : GoString → Except GoString ast.File) (filename structName : GoString)
    (node : ast.File) (info : StructInfo) (hparse : parseFile filename = Except.ok node)
    (hres : ParseStruct u parseFile filename structName = Except.ok info) :
    ∃ fields ∈ structDeclsOfNodes structName node.children,
      newStructInfo u node.Name structName fields = Except.ok info := by
  unfold ParseStruct at hres
  simp only [hparse] at hres
  cases hw : inspectNodes u node.Name structName node.children none with
  | error failure => simp [hw] at hres
  | ok captured =>
    cases captured with
    | none => simp [hw] at hres
    | some built =>
      simp only [hw] at hres
      cases hres
      rcases inspectNodes_cases u node.Name structName node.children none _ hw with
        h | ⟨fields, hmem, info', hinfo, hcap⟩
      · cases h
      · cases hcap
        exact ⟨fields, hmem, hinfo⟩

/-! ## What `ParseStruct` returns -/

/-- The record for a struct declaration is built when `exprToString` returns
for the type of every field. -/
theorem newStructInfo_returns (u : unicode.CaseTables) (pkg structName : GoString)
    (fields : List ast.Field)
    (h : ∀ field ∈ fields, ∃ spelling, exprToString field.Type_ = Except.ok spelling) :
    newStructInfo u pkg structName fields
      = Except.ok (StructInfo.mk structName (fields.flatMap (fieldEntries u)) pkg) := by
  simp [newStructInfo, appendFields_returns u fields [] h]

mutual
/-- The walk below a node returns when `exprToString` returns for every field
type of the struct declarations with the requested name at or below the node,
and the variable is then set if it was set before or there is such a
declaration. -/
theorem inspectNode_returns (u : unicode.CaseTables) (pkg structName : GoString) :
    ∀ (n : ast.Node) (st : Option StructInfo),
      (∀ fields ∈ structDecls structName n, ∀ field ∈ fields,
          ∃ spelling, exprToString field.Type_ = Except.ok spelling) →
      ∃ captured, inspectNode u pkg structName n st = Except.ok captured
        ∧ (structDecls structName n ≠ [] ∨ st.isSome = true → captured.isSome = true)
  | ast.Node.TypeSpec name type children, st => by
    have ih := inspectNodes_returns u pkg structName children st
    intro h
    by_cases hname : name = structName
    · cases type with
      | StructType fields =>
        have hf : ∀ field ∈ fields, ∃ spelling, exprToString field.Type_ = Except.ok spelling :=
          h fields (by simp [structDecls, hname])
        refine ⟨some (StructInfo.mk structName (fields.flatMap (fieldEntries u)) pkg), ?_, ?_⟩
        · simp [inspectNode, hname, newStructInfo_returns u pkg structName fields hf]
        · intro _
          rfl
      | _ =>
        simp only [inspectNode, structDecls, hname, ne_eq, not_true_eq_false, if_false,
          if_true, List.nil_append] at h ⊢
        exact ih h
    · simp only [inspectNode, structDecls, hname, ne_eq, not_false_eq_true, if_true, if_false,
        List.nil_append] at h ⊢
      exact ih h
  | ast.Node.Other children, st => by
    simp only [inspectNode, structDecls]
    exact inspectNodes_returns u pkg structName children st
/-- The same for the walk over a list of nodes. -/
theorem inspectNodes_returns (u : unicode.CaseTables) (pkg structName : GoString) :
    ∀ (ns : List ast.Node) (st : Option StructInfo),
      (∀ fields ∈ structDeclsOfNodes structName ns, ∀ field ∈ fields,
          ∃ spelling, exprToString field.Type_ = Except.ok spelling) →
      ∃ captured, inspectNodes u pkg structName ns st = Except.ok captured
        ∧ (structDeclsOfNodes structName ns ≠ [] ∨ st.isSome = true → captured.isSome = true)
  | [], st => by
    intro _
    exact ⟨st, rfl, by simp [structDeclsOfNodes]⟩
  | n :: ns, st => by
    intro h
    simp only [structDeclsOfNodes, List.mem_append] at h
    obtain ⟨mid, hmid, hsome⟩ :=
      inspectNode_returns u pkg structName n st (fun fields hm => h fields (Or.inl hm))
    obtain ⟨captured, hcap, hsome'⟩ :=
      inspectNodes_returns u pkg structName ns mid (fun fields hm => h fields (Or.inr hm))
    refine ⟨captured, by simp [inspectNodes, hmid, hcap], ?_⟩
    intro hcase
    simp only [structDeclsOfNodes, ne_eq, List.append_eq_nil, not_and_or] at hcase
    rcases hcase with (hd | hd) | hst
    · exact hsome' (Or.inr (hsome (Or.inl hd)))
    · exact hsome' (Or.inl hd)
    · exact hsome' (Or.inr (hsome (Or.inr hst)))
end

/-- What `ParseStruct` returns in general: the error of the parser when the
file does not parse; the error `struct ... not found` when the file parses and
declares no struct of the requested name; a `StructInfo` when it declares one
and `exprToString` returns for every field type of those declarations. -/
theorem parseStruct_outcomes (u : unicode.CaseTables)
    (parseFile : GoString → Except GoString ast.File) (filename structName : GoString) :
    (∀ err, parseFile filename = Except.error err →
        ParseStruct u parseFile filename structName
          = Except.error (Failure.err ("failed to parse file: ".toList ++ err)))
      ∧ (∀ node, parseFile filename = Except.ok node →
          structDeclsOfNodes structName node.children = [] →
          ParseStruct u parseFile filename structName
            = Except.error
                (Failure.err
                  ("struct ".toList ++ structName ++ " not found in file ".toList ++ filename)))
      ∧ (∀ node, parseFile filename = Except.ok node →
          structDeclsOfNodes structName node.children ≠ [] →
          (∀ fields ∈ structDeclsOfNodes structName node.children, ∀ field ∈ fields,
              ∃ spelling, exprToString field.Type_ = Except.ok spelling) →
          ∃ info, ParseStruct u parseFile filename structName = Except.ok info) := by
  refine ⟨?_, ?_, ?_⟩
  · intro err herr
    simp [ParseStruct, herr]
  · intro node hparse hnone
    obtain ⟨captured, hcap, _⟩ :=
      inspectNodes_returns u node.Name structName node.children none (by simp [hnone])
    rcases inspectNodes_cases u node.Name structName node.children none captured hcap with
      h | ⟨fields, hmem, _⟩
    · subst h
      simp [ParseStruct, hparse, hcap]
    · simp [hnone] at hmem
  · intro node hparse hsome hall
    obtain ⟨captured, hcap, hset⟩ :=
      inspectNodes_returns u node.Name structName node.children none hall
    have hs := hset (Or.inl hsome)
    obtain ⟨info, rfl⟩ := Option.isSome_iff_exists.1 hs
    exact ⟨info, by simp [ParseStruct, hparse, hcap]⟩

/-- C15, the code at the failing input: the file `p.go` parses and declares
the struct `T` with the one field `a *[...]int`; `exprToString` panics on the
type of that field, and `ParseStruct` ends in the panic: it returns neither a
`StructInfo` nor an error. -/
theorem parseStruct_panics_on_open_array (u : unicode.CaseTables) :
    openArrayParseFile "p.go".toList = Except.ok openArrayFile
      ∧ (structDeclsOfNodes "T".toList openArrayFile.children).map
            (fun fields => fields.map ast.Field.Names) = [[["a".toList]]]
      ∧ exprToString
          (ast.Expr.StarExpr
            (ast.Expr.ArrayType (some (ast.Expr.Ellipsis none)) (ast.Expr.Ident "int".toList)))
          = Except.error (Failure.panic nilDereference)
      ∧ ParseStruct u openArrayParseFile "p.go".toList "T".toList
          = Except.error (Failure.panic nilDereference)
      ∧ (∀ info : StructInfo,
          ParseStruct u openArrayParseFile "p.go".toList "T".toList ≠ Except.ok info)
      ∧ ∀ msg : GoString,
          ParseStruct u openArrayParseFile "p.go".toList "T".toList
            ≠ Except.error (Failure.err msg) := by
  have h : ParseStruct u openArrayParseFile "p.go".toList "T".toList
      = Except.error (Failure.panic nilDereference) := rfl
  refine ⟨rfl, by decide, rfl, h, ?_, ?_⟩
  · intro info hinfo
    rw [h] at hinfo
    cases hinfo
  · intro msg hmsg
    rw [h] at hmsg
    cases hmsg

/-! ## The returned record -/

/-- C16: a `StructInfo` returned by `ParseStruct` has the requested name and
the package name of the file, and its `Fields` are, for some struct
declaration of that name in the file, the entries of its fields in declaration
order: one entry per declared name, one for an embedded field, each with the
spelled type of the field, which is the string that `exprToString` returned
for it, and the raw tag text, or the empty string without tag. -/
theorem parseStruct_fields (u : unicode.CaseTables)
    (parseFile : GoString → Except GoString ast.File) (filename structName : GoString)
    (node : ast.File) (info : StructInfo) (hparse : parseFile filename = Except.ok node)
    (hres : ParseStruct u parseFile filename structName = Except.ok info) :
    info.Name = structName
      ∧ info.PackageName = node.Name
      ∧ (∃ fields ∈ structDeclsOfNodes structName node.children,
          info.Fields = fields.flatMap (fieldEntries u)
            ∧ ∀ field ∈ fields,
                exprToString field.Type_ = Except.ok (spelledType field.Type_))
      ∧ (∀ field : ast.Field,
          (fieldEntries u field).map FieldInfo.Name
              = (if field.Names = [] then [spelledType field.Type_] else field.Names)
            ∧ ∀ e ∈ fieldEntries u field,
                e.Type_ = spelledType field.Type_ ∧ e.Tag = field.Tag.getD []) := by
  obtain ⟨fields, hmem, hinfo⟩ :=
    parseStruct_ok u parseFile filename structName node info hparse hres
  obtain ⟨rfl, hall⟩ := newStructInfo_ok u node.Name structName fields info hinfo
  refine ⟨rfl, rfl, ⟨fields, hmem, rfl, ?_⟩, ?_⟩
  · intro field hfield
    obtain ⟨spelling, hs⟩ := hall field hfield
    rw [hs, spelledType_eq _ _ hs]
  · intro field
    unfold fieldEntries
    by_cases hn : field.Names = []
    · simp only [hn, if_true, List.map_cons, List.map_nil, List.mem_singleton]
      refine ⟨rfl, ?_⟩
      rintro e rfl
      exact ⟨rfl, rfl⟩
    · simp only [hn, if_false, List.map_map, List.mem_map]
      refine ⟨?_, ?_⟩
      · have : (FieldInfo.Name ∘ fun name =>
            newFieldInfo name (spelledType field.Type_) (field.Tag.getD [])
              (ast.IsExported u name)) = id := by
          funext name
          rfl
        rw [this, List.map_id]
      · rintro e ⟨name, _, rfl⟩
        exact ⟨rfl, rfl⟩

/-- Witness of C16 on `sampleFile`: the declaration `name, alias string` gives
two entries, the tagged `age` one, and the embedded `*sync.Mutex` one. -/
theorem parseStruct_fields_witness :
    ParseStruct unicode.asciiTables sampleParseFile "test.go".toList "TestStruct".toList
        = Except.ok
            (StructInfo.mk "TestStruct".toList
              [FieldInfo.mk "name".toList "string".toList [] false false false false,
               FieldInfo.mk "alias".toList "string".toList [] false false false false,
               FieldInfo.mk "age".toList "int".toList (rawTag "json:\"age\"".toList)
                 false false false false,
               FieldInfo.mk "*sync.Mutex".toList "*sync.Mutex".toList [] true false false false]
              "test".toList)
      ∧ (StructInfo.mk "TestStruct".toList
              [FieldInfo.mk "name".toList "string".toList [] false false false false,
               FieldInfo.mk "alias".toList "string".toList [] false false false false,
               FieldInfo.mk "age".toList "int".toList (rawTag "json:\"age\"".toList)
                 false false false false,
               FieldInfo.mk "*sync.Mutex".toList "*sync.Mutex".toList [] true false false false]
              "test".toList).PackageName = sampleFile.Name :=
  ⟨rfl,
   (parseStruct_fields unicode.asciiTables sampleParseFile "test.go".toList
      "TestStruct".toList sampleFile _ rfl rfl).2.1⟩

/-! ## The generator -/

/-- C18: `toLowerCamelCase` and `toUpperCamelCase` change the first rune only,
to its lower case and its upper case, leave the remainder untouched and map
the empty string to itself; `toLowerCamelCase "HTTPClient" = "hTTPClient"` and
`toUpperCamelCase "httpClient" = "HttpClient"`. -/
theorem camelCase_first_rune (u : unicode.CaseTables)
    (hLower : u.ToLower 'H' = 'h') (hUpper : u.ToUpper 'h' = 'H') :
    (∀ (c : Char) (rest : GoString), toLowerCamelCase u (c :: rest) = u.ToLower c :: rest)
      ∧ (∀ (c : Char) (rest : GoString), toUpperCamelCase u (c :: rest) = u.ToUpper c :: rest)
      ∧ (∀ s : GoString, (toLowerCamelCase u s).tail = s.tail
          ∧ (toUpperCamelCase u s).tail = s.tail)
      ∧ toLowerCamelCase u [] = []
      ∧ toUpperCamelCase u [] = []
      ∧ toLowerCamelCase u "HTTPClient".toList = "hTTPClient".toList
      ∧ toUpperCamelCase u "httpClient".toList = "HttpClient".toList := by
  refine ⟨fun _ _ => rfl, fun _ _ => rfl, ?_, rfl, rfl, ?_, ?_⟩
  · intro s
    cases s <;> exact ⟨rfl, rfl⟩
  · show u.ToLower 'H' :: "TTPClient".toList = "hTTPClient".toList
    rw [hLower]
    rfl
  · show u.ToUpper 'h' :: "ttpClient".toList = "HttpClient".toList
    rw [hUpper]
    rfl

/-- Witness of C18 on the ASCII case tables. -/
theorem camelCase_first_rune_witness :
    toLowerCamelCase unicode.asciiTables "HTTPClient".toList = "hTTPClient".toList
      ∧ toUpperCamelCase unicode.asciiTables "httpClient".toList = "HttpClient".toList :=
  ⟨(camelCase_first_rune unicode.asciiTables (by decide) (by decide)).2.2.2.2.2.1,
   (camelCase_first_rune unicode.asciiTables (by decide) (by decide)).2.2.2.2.2.2⟩

/-- The text of a declaration is part of the text of a list that holds it. -/
theorem renderDecl_part_of_renderDecls (d : Decl) (decls : List Decl) (h : d ∈ decls) :
    renderDecl d <:+: renderDecls decls := by
  obtain ⟨l₁, l₂, rfl⟩ := List.append_of_mem h
  unfold renderDecls
  simp only [List.map_append, List.map_cons, List.flatten_append, List.flatten_cons]
  exact ⟨(List.map (fun d => "\n".toList ++ renderDecl d) l₁).flatten ++ "\n".toList,
    (List.map (fun d => "\n".toList ++ renderDecl d) l₂).flatten, by simp⟩

/-- The head of an emitted function is part of the generated text. -/
theorem signature_part_of_text (u : unicode.CaseTables) (g : Generator) (decls : List Decl)
    (recv : Option Param) (name : GoString) (params : List Param) (result : GoString)
    (body : List Stmt) (hemit : g.emit u = Except.ok decls)
    (hmem : Decl.funcDecl recv name params result body ∈ decls) :
    ∃ text, g.Generate u = Except.ok text
      ∧ renderSignature recv name params result <:+: text := by
  refine ⟨"package ".toList ++ g.info.PackageName ++ "\n".toList ++ renderDecls decls,
    by rw [Generator.Generate, hemit], ?_⟩
  have h1 : renderSignature recv name params result
      <:+: renderDecl (Decl.funcDecl recv name params result body) :=
    ⟨[], "\n".toList ++ (body.map renderStmt).flatten ++ "\x7d\n".toList, by
      simp [renderDecl]⟩
  have h2 := renderDecl_part_of_renderDecls _ _ hmem
  exact List.IsInfix.trans h1
    (List.IsInfix.trans h2 (List.suffix_append _ _).isInfix)

/-- C19: when `Generate` succeeds for a configuration that requests `allArgs`,
it emits a function `New<StructName>` whose parameter list is the constructor
fields (`Skip = false`, `SkipSetter = false`), one parameter per field in
declaration order, each written as a name, a space and the type of the field;
the name is the field name with a lower initial, which is the field name
itself when it starts lower case; no parameter comes from a field with
`Skip = true`. -/
theorem allArgs_parameters (u : unicode.CaseTables) (g : Generator) (decls : List Decl)
    (hemit : g.emit u = Except.ok decls)
    (hreq : "allArgs".toList ∈ g.config.ConstructorTypes) :
    ∃ body text,
      g.Generate u = Except.ok text
        ∧ Decl.funcDecl none ("New".toList ++ g.config.StructName)
            (g.info.GetFieldsForConstructor.map (fieldParam u)) (resultType g.config) body
            ∈ decls
        ∧ renderSignature none ("New".toList ++ g.config.StructName)
            (g.info.GetFieldsForConstructor.map (fieldParam u)) (resultType g.config)
            <:+: text
        ∧ renderParams (g.info.GetFieldsForConstructor.map (fieldParam u))
            = List.intercalate ", ".toList
                (g.info.GetFieldsForConstructor.map
                  (fun f => toLowerCamelCase u f.Name ++ " ".toList ++ f.Type_))
        ∧ ((∀ f ∈ g.info.GetFieldsForConstructor, toLowerCamelCase u f.Name = f.Name) →
            renderParams (g.info.GetFieldsForConstructor.map (fieldParam u))
              = List.intercalate ", ".toList
                  (g.info.GetFieldsForConstructor.map
                    (fun f => f.Name ++ " ".toList ++ f.Type_)))
        ∧ g.info.GetFieldsForConstructor
            = g.info.Fields.filter (fun f => !f.Skip && !f.SkipSetter)
        ∧ (∀ f ∈ g.info.GetFieldsForConstructor, f.Skip = false)
        ∧ (∀ (f : FieldInfo) (c : Char) (rest : GoString), f.Name = c :: rest →
            u.ToLower c = c → renderParam (fieldParam u f) = f.Name ++ " ".toList ++ f.Type_) := by
  have hfilter : g.info.GetFieldsForConstructor
      = g.info.Fields.filter (fun f => !f.Skip && !f.SkipSetter) := by
    unfold StructInfo.GetFieldsForConstructor
    rw [foldl_append_select (fun f : FieldInfo => !f.Skip && !f.SkipSetter)]
    simp
  have hdecls : decls = g.decls u := by
    unfold Generator.emit at hemit
    split_ifs at hemit
    exact (Except.ok.inj hemit).symm
  have hmem : Decl.funcDecl none ("New".toList ++ g.config.StructName)
      (g.info.GetFieldsForConstructor.map (fieldParam u)) (resultType g.config)
      ([Stmt.newValue g.config.StructName
          (g.info.GetFieldsForConstructor.map
            (fun f => (f.Name, toLowerCamelCase u f.Name)))]
        ++ finishStmts g.config) ∈ decls := by
    rw [hdecls]
    unfold Generator.decls
    rw [if_pos hreq]
    refine List.mem_append_left _ (List.mem_append_left _ (List.mem_append_left _ ?_))
    simp [allArgsDecls]
  obtain ⟨text, htext, hsig⟩ := signature_part_of_text u g decls _ _ _ _ _ hemit hmem
  have hparams : renderParams (g.info.GetFieldsForConstructor.map (fieldParam u))
      = List.intercalate ", ".toList
          (g.info.GetFieldsForConstructor.map
            (fun f => toLowerCamelCase u f.Name ++ " ".toList ++ f.Type_)) := by
    simp only [renderParams, List.map_map]
    rfl
  refine ⟨_, text, htext, hmem, hsig, hparams, ?_, hfilter, ?_, ?_⟩
  · intro hsame
    rw [hparams]
    congr 1
    apply List.map_congr_left
    intro f hf
    rw [hsame f hf]
  · intro f hf
    exact ((mem_getFieldsForConstructor g.info f).1 hf).2.1
  · intro f c rest hf hc
    simp [renderParam, fieldParam, toLowerCamelCase, hf, hc]

/-- Witness of C19 on `TestGenerateAllArgsConstructor`: the emitted head is
`func NewTestStruct(name string, age int) *TestStruct {`. -/
theorem allArgs_parameters_witness :
    ∃ text, allArgsTestGenerator.Generate unicode.asciiTables = Except.ok text
      ∧ "func NewTestStruct(name string, age int) *TestStruct \x7b".toList <:+: text := by
  obtain ⟨_, text, htext, _, hsig, _⟩ :=
    allArgs_parameters unicode.asciiTables allArgsTestGenerator
      (allArgsTestGenerator.decls unicode.asciiTables) rfl (by decide)
  exact ⟨text, htext, hsig⟩

/-- When `Generate` succeeds, what it emits is the list of declarations. -/
theorem emit_ok (u : unicode.CaseTables) (g : Generator) (decls : List Decl)
    (hemit : g.emit u = Except.ok decls) : decls = g.decls u := by
  unfold Generator.emit at hemit
  split_ifs at hemit
  exact (Except.ok.inj hemit).symm

/-- The last statement of every construction path returns the instance. -/
theorem finishStmts_getLast (config : GeneratorConfig) (stmts : List Stmt) :
    (stmts ++ finishStmts config).getLast? = some (Stmt.returnInstance config.ReturnValue) := by
  unfold finishStmts
  rw [← List.append_assoc, List.getLast?_append]
  simp

/-- C20: the constructors that `Generate` emits, the all-args function
`New<StructName>`, the method `Build` of the builder and the function
`New<StructName>WithOptions`, have the result type `*<StructName>` when
`ReturnValue` is false and `<StructName>` when it is true, and end by returning
the instance accordingly; the head of each is written `) <result type> {`. -/
theorem constructors_result_type (u : unicode.CaseTables) (g : Generator) (decls : List Decl)
    (hemit : g.emit u = Except.ok decls) :
    (g.config.ReturnValue = false → resultType g.config = "*".toList ++ g.config.StructName)
      ∧ (g.config.ReturnValue = true → resultType g.config = g.config.StructName)
      ∧ ("allArgs".toList ∈ g.config.ConstructorTypes →
          ∃ params body,
            Decl.funcDecl none ("New".toList ++ g.config.StructName) params
                (resultType g.config) body ∈ decls
              ∧ body.getLast? = some (Stmt.returnInstance g.config.ReturnValue))
      ∧ ("builder".toList ∈ g.config.ConstructorTypes →
          ∃ recv body,
            Decl.funcDecl (some recv) "Build".toList [] (resultType g.config) body ∈ decls
              ∧ body.getLast? = some (Stmt.returnInstance g.config.ReturnValue))
      ∧ ("options".toList ∈ g.config.ConstructorTypes →
          ∃ params body,
            Decl.funcDecl none ("New".toList ++ g.config.StructName ++ "WithOptions".toList)
                params (resultType g.config) body ∈ decls
              ∧ body.getLast? = some (Stmt.returnInstance g.config.ReturnValue))
      ∧ (∀ (recv : Option Param) (name : GoString) (params : List Param),
          ") ".toList ++ resultType g.config ++ " \x7b".toList
            <:+ renderSignature recv name params (resultType g.config))
      ∧ renderStmt (Stmt.returnInstance false) = "\treturn v\n".toList
      ∧ renderStmt (Stmt.returnInstance true) = "\treturn *v\n".toList := by
  have hdecls := emit_ok u g decls hemit
  subst hdecls
  refine ⟨?_, ?_, ?_, ?_, ?_, ?_, rfl, rfl⟩
  · intro h
    simp [resultType, h]
  · intro h
    simp [resultType, h]
  · intro hreq
    refine ⟨g.info.GetFieldsForConstructor.map (fieldParam u), _, ?_,
      finishStmts_getLast g.config
        [Stmt.newValue g.config.StructName
          (g.info.GetFieldsForConstructor.map (fun f => (f.Name, toLowerCamelCase u f.Name)))]⟩
    unfold Generator.decls
    rw [if_pos hreq]
    refine List.mem_append_left _ (List.mem_append_left _ (List.mem_append_left _ ?_))
    unfold allArgsDecls
    exact List.mem_singleton_self _
  · intro hreq
    refine ⟨Param.mk "b".toList ("*".toList ++ (g.config.StructName ++ "Builder".toList)), _, ?_,
      finishStmts_getLast g.config
        [Stmt.newValue g.config.StructName
          (g.info.GetFieldsForConstructor.map (fun f => (f.Name, "b.".toList ++ f.Name)))]⟩
    unfold Generator.decls
    rw [if_pos hreq]
    refine List.mem_append_left _ (List.mem_append_left _ (List.mem_append_right _ ?_))
    unfold builderDecls
    exact List.mem_append_right _ (List.mem_singleton_self _)
  · intro hreq
    refine ⟨[Param.mk "opts".toList ("...".toList ++ (g.config.StructName ++ "Option".toList))],
      _, ?_, finishStmts_getLast g.config
      [Stmt.newValue g.config.StructName [], Stmt.applyOptions]⟩
    unfold Generator.decls
    rw [if_pos hreq]
    refine List.mem_append_left _ (List.mem_append_right _ ?_)
    unfold optionsDecls
    exact List.mem_append_right _ (List.mem_singleton_self _)
  · intro recv name params
    unfold renderSignature
    exact ⟨"func ".toList
        ++ (match recv with
            | some r => "(".toList ++ renderParam r ++ ") ".toList
            | none => [])
        ++ name ++ "(".toList ++ renderParams params, by simp only [List.append_assoc]⟩

/-- Witness of C20 on a configuration that requests the three patterns and the
return by value. -/
theorem constructors_result_type_witness :
    resultType mixedTestGenerator.config = "TestStruct".toList
      ∧ ∃ params body,
          Decl.funcDecl none "NewTestStructWithOptions".toList params "TestStruct".toList body
            ∈ mixedTestGenerator.decls unicode.asciiTables :=
  ⟨(constructors_result_type unicode.asciiTables mixedTestGenerator
      (mixedTestGenerator.decls unicode.asciiTables) rfl).2.1 rfl,
   by
    obtain ⟨params, body, h, _⟩ :=
      (constructors_result_type unicode.asciiTables mixedTestGenerator
        (mixedTestGenerator.decls unicode.asciiTables) rfl).2.2.2.2.1 (by decide)
    exact ⟨params, body, h⟩⟩

/-! ## Invariants of the recorded fields -/

/-- C25: every `FieldInfo` of a `StructInfo` returned by `ParseStruct` has its
three skip flags equal to `parseFieldSkipTags` of its `Tag`, and when it comes
from a field with names its `Exported` flag is `ast.IsExported` of its name:
true exactly when the first character of the name is upper case. -/
theorem parseStruct_field_invariants (u : unicode.CaseTables)
    (parseFile : GoString → Except GoString ast.File) (filename structName : GoString)
    (node : ast.File) (info : StructInfo) (hparse : parseFile filename = Except.ok node)
    (hres : ParseStruct u parseFile filename structName = Except.ok info) :
    (∀ f ∈ info.Fields, (f.Skip, f.SkipGetter, f.SkipSetter) = parseFieldSkipTags f.Tag)
      ∧ ∃ fields ∈ structDeclsOfNodes structName node.children,
          info.Fields = fields.flatMap (fieldEntries u)
            ∧ ∀ field ∈ fields, field.Names ≠ [] → ∀ f ∈ fieldEntries u field,
                f.Name ∈ field.Names
                  ∧ f.Exported = ast.IsExported u f.Name
                  ∧ ∀ (c : Char) (rest : GoString), f.Name = c :: rest →
                      (f.Exported = true ↔ u.IsUpper c = true) := by
  obtain ⟨fields, hmem, hinfo⟩ :=
    parseStruct_ok u parseFile filename structName node info hparse hres
  have hflags : ∀ field : ast.Field, ∀ f ∈ fieldEntries u field,
      (f.Skip, f.SkipGetter, f.SkipSetter) = parseFieldSkipTags f.Tag := by
    intro field f hf
    unfold fieldEntries at hf
    split_ifs at hf
    · rw [List.mem_singleton] at hf
      subst hf
      rfl
    · obtain ⟨name, _, rfl⟩ := List.mem_map.1 hf
      rfl
  refine ⟨?_, fields, hmem, ?_, ?_⟩
  · intro f hf
    obtain ⟨field, _, hfe⟩ := (mem_newStructInfo_fields u _ _ fields info hinfo f).1 hf
    exact hflags field f hfe
  · rw [(newStructInfo_ok u node.Name structName fields info hinfo).1]
  · intro field _ hnames f hf
    unfold fieldEntries at hf
    rw [if_neg hnames] at hf
    obtain ⟨name, hname, rfl⟩ := List.mem_map.1 hf
    refine ⟨hname, rfl, ?_⟩
    intro c rest hc
    have hn : name = c :: rest := hc
    subst hn
    exact Iff.rfl

/-- Witness of C25 on the field `age` of `sampleFile`, tagged `json:"age"`. -/
theorem parseStruct_field_invariants_witness :
    (false, false, false) = parseFieldSkipTags (rawTag "json:\"age\"".toList) :=
  (parseStruct_field_invariants unicode.asciiTables sampleParseFile "test.go".toList
    "TestStruct".toList sampleFile
    (StructInfo.mk "TestStruct".toList
      [FieldInfo.mk "name".toList "string".toList [] false false false false,
       FieldInfo.mk "alias".toList "string".toList [] false false false false,
       FieldInfo.mk "age".toList "int".toList (rawTag "json:\"age\"".toList)
         false false false false,
       FieldInfo.mk "*sync.Mutex".toList "*sync.Mutex".toList [] true false false false]
      "test".toList) rfl rfl).1
    (FieldInfo.mk "age".toList "int".toList (rawTag "json:\"age\"".toList)
      false false false false)
    (by decide)

/-- C26: for an embedded field the loop of `ParseStruct` records one
`FieldInfo`, named by the spelling of its type that `exprToString` returns,
with `Exported = true` whatever the type; no `GetFieldsForGetter` returns it.
An embedded `*sync.Mutex` and an embedded unexported `base` are recorded so. -/
theorem embedded_field_entry (u : unicode.CaseTables) (acc : List FieldInfo)
    (field : ast.Field) (hnames : field.Names = []) :
    (∀ spelling : GoString, exprToString field.Type_ = Except.ok spelling →
      ∃ e : FieldInfo, appendField u acc field = Except.ok (acc ++ [e])
        ∧ e.Name = spelling
        ∧ e.Type_ = spelling
        ∧ e.Name = e.Type_
        ∧ e.Exported = true
        ∧ ∀ s : StructInfo, e ∉ s.GetFieldsForGetter)
      ∧ (∀ failure : Failure, exprToString field.Type_ = Except.error failure →
          appendField u acc field = Except.error failure)
      ∧ appendField u []
          (ast.Field.mk []
            (ast.Expr.StarExpr (ast.Expr.SelectorExpr (ast.Expr.Ident "sync".toList) "Mutex".toList))
            none)
          = Except.ok
              [FieldInfo.mk "*sync.Mutex".toList "*sync.Mutex".toList [] true false false false]
      ∧ appendField u [] (ast.Field.mk [] (ast.Expr.Ident "base".toList) none)
          = Except.ok [FieldInfo.mk "base".toList "base".toList [] true false false false] := by
  refine ⟨?_, fun failure h => appendField_error u acc field failure h, rfl, rfl⟩
  intro spelling hs
  refine ⟨newFieldInfo spelling spelling (field.Tag.getD []) true, ?_, rfl, rfl, rfl, rfl, ?_⟩
  · rw [appendField_eq u acc field spelling hs]
    unfold fieldEntries
    rw [if_pos hnames, spelledType_eq _ _ hs]
  · intro s h
    have := ((mem_getFieldsForGetter s _).1 h).2.2.2
    exact Bool.noConfusion this

/-- Witness of C26 on the embedded `*sync.Mutex` of `sampleFile`. -/
theorem embedded_field_entry_witness :
    ∃ e : FieldInfo,
      appendField unicode.asciiTables []
          (ast.Field.mk []
            (ast.Expr.StarExpr (ast.Expr.SelectorExpr (ast.Expr.Ident "sync".toList) "Mutex".toList))
            none) = Except.ok ([] ++ [e])
        ∧ e.Name = "*sync.Mutex".toList ∧ e.Exported = true := by
  obtain ⟨e, h1, h2, _, _, h5, _⟩ :=
    (embedded_field_entry unicode.asciiTables []
      (ast.Field.mk []
        (ast.Expr.StarExpr (ast.Expr.SelectorExpr (ast.Expr.Ident "sync".toList) "Mutex".toList))
        none) rfl).1 "*sync.Mutex".toList rfl
  exact ⟨e, h1, h2, h5⟩

/-! ## Several declarations with the requested name -/

/-- C27, the code at the failing input: `shadowFile` declares `T` with the
field `a int` first and a local `T` with the field `b string` later; the walk
goes on after the first and `ParseStruct` returns the record of the later one. -/
theorem parseStruct_returns_later_match :
    (structDeclsOfNodes "T".toList shadowFile.children).map (fun fields => fields.map ast.Field.Names)
        = [[["a".toList]], [["b".toList]]]
      ∧ ParseStruct unicode.asciiTables shadowParseFile "shadow.go".toList "T".toList
          = Except.ok
              (StructInfo.mk "T".toList
                [FieldInfo.mk "b".toList "string".toList [] false false false false]
                "p".toList) :=
  ⟨by decide, rfl⟩

/-! ## Types spelled without their contents -/

/-- C29: `exprToString` gives `func(...)` for every function type,
`interface{...}` for every interface type with at least one method and
`struct{...}` for every struct type, whatever they contain; two fields whose
function types differ are recorded with the same `Type`. -/
theorem exprToString_lossy :
    (∀ params results : List ast.Field,
        exprToString (ast.Expr.FuncType params results) = Except.ok "func(...)".toList)
      ∧ (∀ (m : ast.Field) (ms : List ast.Field),
          exprToString (ast.Expr.InterfaceType (m :: ms))
            = Except.ok "interface\x7b...\x7d".toList)
      ∧ (∀ fields : List ast.Field,
          exprToString (ast.Expr.StructType fields) = Except.ok "struct\x7b...\x7d".toList)
      ∧ (∀ (u : unicode.CaseTables) (p₁ r₁ p₂ r₂ : List ast.Field),
          Except.map (List.map FieldInfo.Type_)
              (appendField u [] (ast.Field.mk ["f".toList] (ast.Expr.FuncType p₁ r₁) none))
            = Except.ok ["func(...)".toList]
          ∧ Except.map (List.map FieldInfo.Type_)
              (appendField u [] (ast.Field.mk ["g".toList] (ast.Expr.FuncType p₂ r₂) none))
            = Except.map (List.map FieldInfo.Type_)
                (appendField u [] (ast.Field.mk ["f".toList] (ast.Expr.FuncType p₁ r₁) none))) := by
  exact ⟨fun _ _ => rfl, fun _ _ => rfl, fun _ => rfl, fun _ _ _ _ _ => ⟨rfl, rfl⟩⟩

/-! ## Tags written as interpreted string literals -/

/-- The scan of a string without white space yields the field being read
followed by the string, as one token. -/
theorem fieldsAux_no_space (s cur : List Char) (h : ∀ c ∈ s, unicode.IsSpace c = false) :
    strings.fieldsAux s cur = if cur.reverse ++ s = [] then [] else [cur.reverse ++ s] := by
  induction s generalizing cur with
  | nil =>
    cases cur with
    | nil => rfl
    | cons x xs => simp [strings.fieldsAux]
  | cons c cs ih =>
    have hc : unicode.IsSpace c = false := h c (List.mem_cons_self c cs)
    have hcs : ∀ d ∈ cs, unicode.IsSpace d = false :=
      fun d hd => h d (List.mem_cons_of_mem c hd)
    simp only [strings.fieldsAux, hc, Bool.false_eq_true, if_false]
    rw [ih (c :: cur) hcs]
    simp

/-- Dropping the leading characters that satisfy `p` stops at the latest at a
last character that does not satisfy `p`. -/
theorem dropWhile_append_singleton (p : Char → Bool) (l : List Char) (x : Char)
    (hx : p x = false) : (l ++ [x]).dropWhile p = l.dropWhile p ++ [x] := by
  induction l with
  | nil => simp [List.dropWhile_cons, hx]
  | cons y ys ih =>
    by_cases hy : p y = true
    · simp [List.dropWhile_cons, hy, ih]
    · simp [List.dropWhile_cons, hy]

/-- The function `Trim` keeps a first character that is not in the cutset. -/
theorem trim_cons (x : Char) (rest cutset : GoString) (hx : cutset.contains x = false) :
    ∃ rest', strings.Trim (x :: rest) cutset = x :: rest' := by
  unfold strings.Trim strings.TrimLeft strings.TrimRight
  rw [List.reverse_cons, dropWhile_append_singleton _ _ _ hx, List.reverse_append]
  simp only [List.reverse_cons, List.reverse_nil, List.nil_append, List.singleton_append]
  exact ⟨_, by rw [List.dropWhile_cons, hx]; rfl⟩

/-- A token that starts with a double quote sets no flag. -/
theorem quoted_token_sets_nothing (rest : GoString) :
    setsSkip (Char.ofNat 34 :: rest) = false
      ∧ setsSkipGetter (Char.ofNat 34 :: rest) = false
      ∧ setsSkipSetter (Char.ofNat 34 :: rest) = false := by
  have hC : strings.HasPrefix (Char.ofNat 34 :: rest) keyConstructor = false := by
    have : keyConstructor = 'c' :: "onstructor:".toList := rfl
    simp [strings.HasPrefix, this, List.isPrefixOf]
  have hN : strings.HasPrefix (Char.ofNat 34 :: rest) keyNewc = false := by
    have : keyNewc = 'n' :: "ewc:".toList := rfl
    simp [strings.HasPrefix, this, List.isPrefixOf]
  have hG : strings.HasPrefix (Char.ofNat 34 :: rest) keyGonstructor = false := by
    have : keyGonstructor = 'g' :: "onstructor:".toList := rfl
    simp [strings.HasPrefix, this, List.isPrefixOf]
  simp [setsSkip, setsSkipGetter, setsSkipSetter, hC, hN, hG]

/-- C30: for a raw tag text without white space that begins with a double
quote, as the source text of a tag written as an interpreted string literal
does, `parseFieldSkipTags` returns `(false, false, false)`: only backticks are
stripped, the single token starts with the quote and matches no key. -/
theorem quoted_tag_all_false (tag rest : GoString) (hquote : tag = Char.ofNat 34 :: rest)
    (hspace : ∀ c ∈ tag, unicode.IsSpace c = false) :
    parseFieldSkipTags tag = (false, false, false)
      ∧ ∃ rest', strings.Fields (strings.Trim tag backtick) = [Char.ofNat 34 :: rest'] := by
  subst hquote
  obtain ⟨rest', hrest'⟩ := trim_cons (Char.ofNat 34) rest backtick (by decide)
  have hsp : ∀ c ∈ Char.ofNat 34 :: rest', unicode.IsSpace c = false := by
    intro c hc
    rw [← hrest'] at hc
    exact hspace c ((trim_part_of_arg _ _).subset hc)
  have hparts : tagParts (Char.ofNat 34 :: rest) = [Char.ofNat 34 :: rest'] := by
    unfold tagParts strings.Fields
    rw [hrest', fieldsAux_no_space _ _ hsp]
    simp
  refine ⟨?_, rest', hparts⟩
  obtain ⟨h1, h2, h3⟩ := quoted_token_sets_nothing rest'
  rw [parseFieldSkipTags_eq, hparts]
  simp [h1, h2, h3]

/-- Witness of C30 on the source text `"constructor:\"-\""`. -/
theorem quoted_tag_all_false_witness :
    parseFieldSkipTags "\"constructor:\\\"-\\\"\"".toList = (false, false, false) :=
  (quoted_tag_all_false "\"constructor:\\\"-\\\"\"".toList
    "constructor:\\\"-\\\"\"".toList rfl (by decide)).1

/-! ## Accessors, setters and options -/

/-- A filter that rejects every element of a list yields the empty list. -/
theorem filter_none {α : Type} (p : α → Bool) (l : List α) (h : ∀ x ∈ l, p x = false) :
    l.filter p = [] := by
  rw [List.filter_eq_nil_iff]
  intro x hx
  simp [h x hx]

/-- A filter that accepts every element of a list yields the list. -/
theorem filter_all {α : Type} (p : α → Bool) (l : List α) (h : ∀ x ∈ l, p x = true) :
    l.filter p = l :=
  List.filter_eq_self.2 h

/-- The type of the builder is not the type of the struct. -/
theorem builder_type_ne (s : GoString) :
    "*".toList ++ (s ++ "Builder".toList) ≠ "*".toList ++ s := by
  intro h
  have := congrArg List.length h
  simp at this

/-- The result type of a constructor is not the option type. -/
theorem resultType_ne_option (config : GeneratorConfig) :
    resultType config ≠ config.StructName ++ "Option".toList := by
  intro h
  have := congrArg List.length h
  unfold resultType at this
  split_ifs at this <;> simp at this

/-- The type of a pointer to the builder is not the option type. -/
theorem builder_pointer_ne_option (s : GoString) :
    "*".toList ++ (s ++ "Builder".toList) ≠ s ++ "Option".toList := by
  intro h
  have := congrArg List.length h
  simp at this

/-- The all-args emission holds no method, no setter and no option constructor. -/
theorem allArgsDecls_select (u : unicode.CaseTables) (config : GeneratorConfig)
    (info : StructInfo) :
    (allArgsDecls u config info).filter (isStructMethod config.StructName) = []
      ∧ (allArgsDecls u config info).filter (isBuilderSetter config.StructName) = []
      ∧ (allArgsDecls u config info).filter (isOptionFunc config.StructName) = [] := by
  have h := resultType_ne_option config
  refine ⟨filter_none _ _ ?_, filter_none _ _ ?_, filter_none _ _ ?_⟩
  · intro d hd
    simp only [allArgsDecls, List.mem_singleton] at hd
    subst hd
    simp [isStructMethod, Decl.recvType]
  · intro d hd
    simp only [allArgsDecls, List.mem_singleton] at hd
    subst hd
    simp [isBuilderSetter, Decl.recvType]
  · intro d hd
    simp only [allArgsDecls, List.mem_singleton] at hd
    subst hd
    simpa [isOptionFunc, Decl.recvType, Decl.resultOf] using h

/-- The setter that the builder emission holds for a constructor field. -/
theorem builderDecls_select (u : unicode.CaseTables) (config : GeneratorConfig)
    (info : StructInfo) :
    (builderDecls u config info).filter (isStructMethod config.StructName) = []
      ∧ (builderDecls u config info).filter (isBuilderSetter config.StructName)
          = info.GetFieldsForConstructor.map
              (fun f =>
                Decl.funcDecl
                  (some (Param.mk "b".toList
                    ("*".toList ++ (config.StructName ++ "Builder".toList))))
                  (config.SetterPrefix ++ toUpperCamelCase u f.Name) [fieldParam u f]
                  ("*".toList ++ (config.StructName ++ "Builder".toList))
                  [Stmt.assign ("b.".toList ++ f.Name) (toLowerCamelCase u f.Name),
                   Stmt.returnExpr "b".toList])
      ∧ (builderDecls u config info).filter (isOptionFunc config.StructName) = [] := by
  have h2 := builder_pointer_ne_option config.StructName
  refine ⟨filter_none _ _ ?_, ?_, filter_none _ _ ?_⟩
  · intro d hd
    simp only [builderDecls, List.mem_append, List.mem_cons, List.mem_singleton, List.mem_map,
      List.not_mem_nil, or_false] at hd
    rcases hd with ((rfl | rfl) | ⟨f, _, rfl⟩) | rfl
    · simp [isStructMethod, Decl.recvType]
    · simp [isStructMethod, Decl.recvType]
    · simp [isStructMethod, Decl.recvType]
    · simp [isStructMethod, Decl.recvType]
  · unfold builderDecls
    simp only [List.filter_append]
    rw [filter_none (isBuilderSetter config.StructName) [_, _] (by
        intro d hd
        simp only [List.mem_cons, List.mem_singleton, List.not_mem_nil, or_false] at hd
        rcases hd with rfl | rfl <;> simp [isBuilderSetter, Decl.recvType]),
      filter_none (isBuilderSetter config.StructName) [_] (by
        intro d hd
        simp only [List.mem_singleton] at hd
        subst hd
        simp [isBuilderSetter, Decl.recvType, Decl.paramCount]),
      filter_all (isBuilderSetter config.StructName) _ (by
        intro d hd
        obtain ⟨f, _, rfl⟩ := List.mem_map.1 hd
        simp [isBuilderSetter, Decl.recvType, Decl.paramCount])]
    simp
  · intro d hd
    simp only [builderDecls, List.mem_append, List.mem_cons, List.mem_singleton, List.mem_map,
      List.not_mem_nil, or_false] at hd
    rcases hd with ((rfl | rfl) | ⟨f, _, rfl⟩) | rfl
    · simp [isOptionFunc, Decl.recvType, Decl.resultOf]
    · simpa [isOptionFunc, Decl.recvType, Decl.resultOf] using h2
    · simp [isOptionFunc, Decl.recvType]
    · simp [isOptionFunc, Decl.recvType]

/-- The option constructor that the options emission holds for a constructor field. -/
theorem optionsDecls_select (u : unicode.CaseTables) (config : GeneratorConfig)
    (info : StructInfo) :
    (optionsDecls u config info).filter (isStructMethod config.StructName) = []
      ∧ (optionsDecls u config info).filter (isBuilderSetter config.StructName) = []
      ∧ (optionsDecls u config info).filter (isOptionFunc config.StructName)
          = info.GetFieldsForConstructor.map
              (fun f =>
                Decl.funcDecl none ("With".toList ++ toUpperCamelCase u f.Name) [fieldParam u f]
                  (config.StructName ++ "Option".toList)
                  [Stmt.returnOption config.StructName f.Name (toLowerCamelCase u f.Name)]) := by
  have h3 := resultType_ne_option config
  refine ⟨filter_none _ _ ?_, filter_none _ _ ?_, ?_⟩
  · intro d hd
    simp only [optionsDecls, List.mem_append, List.mem_singleton, List.mem_map] at hd
    rcases hd with (rfl | ⟨f, _, rfl⟩) | rfl <;> simp [isStructMethod, Decl.recvType]
  · intro d hd
    simp only [optionsDecls, List.mem_append, List.mem_singleton, List.mem_map] at hd
    rcases hd with (rfl | ⟨f, _, rfl⟩) | rfl <;> simp [isBuilderSetter, Decl.recvType]
  · unfold optionsDecls
    simp only [List.filter_append]
    rw [filter_none (isOptionFunc config.StructName) [Decl.funcTypeDecl _ _] (by
        intro d hd
        simp only [List.mem_singleton] at hd
        subst hd
        simp [isOptionFunc, Decl.recvType, Decl.resultOf]),
      filter_none (isOptionFunc config.StructName) [Decl.funcDecl _ _ _ _ _] (by
        intro d hd
        simp only [List.mem_singleton] at hd
        subst hd
        simpa [isOptionFunc, Decl.recvType, Decl.resultOf] using h3),
      filter_all (isOptionFunc config.StructName) _ (by
        intro d hd
        obtain ⟨f, _, rfl⟩ := List.mem_map.1 hd
        simp [isOptionFunc, Decl.recvType, Decl.resultOf])]
    simp

/-- The accessor emission holds methods on the struct only. -/
theorem getterDecls_select (u : unicode.CaseTables) (config : GeneratorConfig)
    (info : StructInfo) :
    (getterDecls u config info).filter (isStructMethod config.StructName)
        = getterDecls u config info
      ∧ (getterDecls u config info).filter (isBuilderSetter config.StructName) = []
      ∧ (getterDecls u config info).filter (isOptionFunc config.StructName) = [] := by
  refine ⟨filter_all _ _ ?_, filter_none _ _ ?_, filter_none _ _ ?_⟩
  · intro d hd
    obtain ⟨f, _, rfl⟩ := List.mem_map.1 hd
    simp [isStructMethod, Decl.recvType]
  · intro d hd
    obtain ⟨f, _, rfl⟩ := List.mem_map.1 hd
    simp [isBuilderSetter, Decl.recvType, Decl.paramCount]
  · intro d hd
    obtain ⟨f, _, rfl⟩ := List.mem_map.1 hd
    simp [isOptionFunc, Decl.recvType]

/-- The filter of an emission that is present or absent. -/
theorem filter_ite {α : Type} (p : α → Bool) (c : Prop) [Decidable c] (l : List α) :
    (if c then l else []).filter p = if c then l.filter p else [] := by
  split_ifs <;> simp

/-- C21: among the declarations that `Generate` emits, the methods on the
struct are, when `WithGetter` is set, one `Get<UpperFieldName>()` per accessor
field (not exported, `Skip = false`, `SkipGetter = false`) in declaration
order, so none for an exported field; when `WithGetter` is false there is
none, whatever the flags of the fields. -/
theorem getters_emitted (u : unicode.CaseTables) (g : Generator) (decls : List Decl)
    (hemit : g.emit u = Except.ok decls) :
    (g.config.WithGetter = true →
        decls.filter (isStructMethod g.config.StructName)
          = g.info.GetFieldsForGetter.map
              (fun f =>
                Decl.funcDecl
                  (some (Param.mk ((toLowerCamelCase u g.config.StructName).take 1)
                    ("*".toList ++ g.config.StructName)))
                  ("Get".toList ++ toUpperCamelCase u f.Name) [] f.Type_
                  [Stmt.returnExpr
                    ((toLowerCamelCase u g.config.StructName).take 1 ++ ".".toList ++ f.Name)]))
      ∧ (g.config.WithGetter = false →
          decls.filter (isStructMethod g.config.StructName) = [])
      ∧ g.info.GetFieldsForGetter
          = g.info.Fields.filter (fun f => !f.Skip && !f.SkipGetter && !f.Exported)
      ∧ (∀ f ∈ g.info.GetFieldsForGetter,
          f.Exported = false ∧ f.Skip = false ∧ f.SkipGetter = false) := by
  have hdecls := emit_ok u g decls hemit
  subst hdecls
  have hsel : (g.decls u).filter (isStructMethod g.config.StructName)
      = if g.config.WithGetter = true then getterDecls u g.config g.info else [] := by
    unfold Generator.decls
    simp only [List.filter_append, filter_ite, (allArgsDecls_select u g.config g.info).1,
      (builderDecls_select u g.config g.info).1, (optionsDecls_select u g.config g.info).1,
      (getterDecls_select u g.config g.info).1, ite_self, List.nil_append]
  refine ⟨?_, ?_, ?_, ?_⟩
  · intro h
    rw [hsel, if_pos h]
    rfl
  · intro h
    rw [hsel, if_neg (by simp [h])]
  · unfold StructInfo.GetFieldsForGetter
    rw [foldl_append_select (fun f : FieldInfo => !f.Skip && !f.SkipGetter && !f.Exported)]
    simp
  · intro f hf
    have := (mem_getFieldsForGetter g.info f).1 hf
    exact ⟨this.2.2.2, this.2.1, this.2.2.1⟩

/-- Witness of C21 on `TestGenerateWithGetters`: the only method on the struct
is `GetName`, for the private field; the exported `PublicField` has none. -/
theorem getters_emitted_witness :
    (gettersTestGenerator.decls unicode.asciiTables).filter (isStructMethod "TestStruct".toList)
      = [Decl.funcDecl (some (Param.mk "t".toList "*TestStruct".toList)) "GetName".toList []
          "string".toList [Stmt.returnExpr "t.name".toList]] :=
  ((getters_emitted unicode.asciiTables gettersTestGenerator
      (gettersTestGenerator.decls unicode.asciiTables) rfl).1 rfl).trans (by decide)

/-- C22: among the declarations that `Generate` emits, when the builder is
requested the setters on `<StructName>Builder` are one per constructor field,
in declaration order, named `SetterPrefix` followed by the field name with an
upper initial; when options are requested the option constructors are one
per constructor field, named `With` followed by the field name with an upper
initial, whatever the `SetterPrefix`; so a field that is not a constructor
field gets neither. -/
theorem setters_and_options_emitted (u : unicode.CaseTables) (g : Generator)
    (decls : List Decl) (hemit : g.emit u = Except.ok decls) :
    ("builder".toList ∈ g.config.ConstructorTypes →
        decls.filter (isBuilderSetter g.config.StructName)
          = g.info.GetFieldsForConstructor.map
              (fun f =>
                Decl.funcDecl
                  (some (Param.mk "b".toList
                    ("*".toList ++ (g.config.StructName ++ "Builder".toList))))
                  (g.config.SetterPrefix ++ toUpperCamelCase u f.Name) [fieldParam u f]
                  ("*".toList ++ (g.config.StructName ++ "Builder".toList))
                  [Stmt.assign ("b.".toList ++ f.Name) (toLowerCamelCase u f.Name),
                   Stmt.returnExpr "b".toList]))
      ∧ ("options".toList ∈ g.config.ConstructorTypes →
          decls.filter (isOptionFunc g.config.StructName)
            = g.info.GetFieldsForConstructor.map
                (fun f =>
                  Decl.funcDecl none ("With".toList ++ toUpperCamelCase u f.Name)
                    [fieldParam u f] (g.config.StructName ++ "Option".toList)
                    [Stmt.returnOption g.config.StructName f.Name (toLowerCamelCase u f.Name)]))
      ∧ ("builder".toList ∉ g.config.ConstructorTypes →
          decls.filter (isBuilderSetter g.config.StructName) = [])
      ∧ ("options".toList ∉ g.config.ConstructorTypes →
          decls.filter (isOptionFunc g.config.StructName) = [])
      ∧ g.info.GetFieldsForConstructor
          = g.info.Fields.filter (fun f => !f.Skip && !f.SkipSetter) := by
  have hdecls := emit_ok u g decls hemit
  subst hdecls
  have hset : (g.decls u).filter (isBuilderSetter g.config.StructName)
      = if "builder".toList ∈ g.config.ConstructorTypes then
          (builderDecls u g.config g.info).filter (isBuilderSetter g.config.StructName)
        else [] := by
    unfold Generator.decls
    simp only [List.filter_append, filter_ite, (allArgsDecls_select u g.config g.info).2.1,
      (optionsDecls_select u g.config g.info).2.1, (getterDecls_select u g.config g.info).2.1,
      ite_self, List.nil_append, List.append_nil]
  have hopt : (g.decls u).filter (isOptionFunc g.config.StructName)
      = if "options".toList ∈ g.config.ConstructorTypes then
          (optionsDecls u g.config g.info).filter (isOptionFunc g.config.StructName)
        else [] := by
    unfold Generator.decls
    simp only [List.filter_append, filter_ite, (allArgsDecls_select u g.config g.info).2.2,
      (builderDecls_select u g.config g.info).2.2, (getterDecls_select u g.config g.info).2.2,
      ite_self, List.nil_append, List.append_nil]
  refine ⟨?_, ?_, ?_, ?_, ?_⟩
  · intro h
    rw [hset, if_pos h, (builderDecls_select u g.config g.info).2.1]
  · intro h
    rw [hopt, if_pos h, (optionsDecls_select u g.config g.info).2.2]
  · intro h
    rw [hset, if_neg h]
  · intro h
    rw [hopt, if_neg h]
  · unfold StructInfo.GetFieldsForConstructor
    rw [foldl_append_select (fun f : FieldInfo => !f.Skip && !f.SkipSetter)]
    simp

/-- Witness of C22 on `Database` with an empty prefix: the setters are `Host`,
`Port` and `Password`, and `poolSize`, tagged `setter:false`, has none. -/
theorem setters_and_options_emitted_witness :
    ((databaseTestGenerator.decls unicode.asciiTables).filter
        (isBuilderSetter "Database".toList)).map Decl.funcName
      = ["Host".toList, "Port".toList, "Password".toList] :=
  (congrArg (List.map Decl.funcName)
    ((setters_and_options_emitted unicode.asciiTables databaseTestGenerator
      (databaseTestGenerator.decls unicode.asciiTables) rfl).1 (by decide))).trans (by decide)

/-! ## The init hook -/

/-- Without init hook no emitted body holds a call of one. -/
theorem no_callInit (u : unicode.CaseTables) (g : Generator) (hinit : g.config.InitFunc = [])
    (d : Decl) (hd : d ∈ g.decls u) (m : GoString) : Stmt.callInit m ∉ d.body := by
  have hfin : finishStmts g.config = [Stmt.returnInstance g.config.ReturnValue] := by
    simp [finishStmts, hinit]
  unfold Generator.decls at hd
  simp only [List.mem_append] at hd
  rcases hd with ((hd | hd) | hd) | hd
  · split_ifs at hd
    · simp only [allArgsDecls, List.mem_singleton] at hd
      subst hd
      simp [Decl.body, hfin]
    · exact absurd hd (List.not_mem_nil d)
  · split_ifs at hd
    · simp only [builderDecls, List.mem_append, List.mem_cons, List.mem_singleton,
        List.mem_map, List.not_mem_nil, or_false] at hd
      rcases hd with ((rfl | rfl) | ⟨f, _, rfl⟩) | rfl <;> simp [Decl.body, hfin]
    · exact absurd hd (List.not_mem_nil d)
  · split_ifs at hd
    · simp only [optionsDecls, List.mem_append, List.mem_singleton, List.mem_map] at hd
      rcases hd with (rfl | ⟨f, _, rfl⟩) | rfl <;> simp [Decl.body, hfin]
    · exact absurd hd (List.not_mem_nil d)
  · split_ifs at hd
    · obtain ⟨f, _, rfl⟩ := List.mem_map.1 hd
      simp [Decl.body]
    · exact absurd hd (List.not_mem_nil d)

/-- C23: with an init hook configured, the all-args constructor, `Build` and
the options constructor that `Generate` emits each assign the fields, then
call the hook on the instance, then return it; without init hook no emitted
body calls one. The call is written `v.<hook>()`. -/
theorem init_hook_emitted (u : unicode.CaseTables) (g : Generator) (decls : List Decl)
    (hemit : g.emit u = Except.ok decls) :
    (g.config.InitFunc ≠ [] →
        ("allArgs".toList ∈ g.config.ConstructorTypes →
            Decl.funcDecl none ("New".toList ++ g.config.StructName)
              (g.info.GetFieldsForConstructor.map (fieldParam u)) (resultType g.config)
              ([Stmt.newValue g.config.StructName
                  (g.info.GetFieldsForConstructor.map
                    (fun f => (f.Name, toLowerCamelCase u f.Name)))]
                ++ [Stmt.callInit g.config.InitFunc,
                    Stmt.returnInstance g.config.ReturnValue]) ∈ decls)
          ∧ ("builder".toList ∈ g.config.ConstructorTypes →
              Decl.funcDecl
                (some (Param.mk "b".toList
                  ("*".toList ++ (g.config.StructName ++ "Builder".toList))))
                "Build".toList [] (resultType g.config)
                ([Stmt.newValue g.config.StructName
                    (g.info.GetFieldsForConstructor.map
                      (fun f => (f.Name, "b.".toList ++ f.Name)))]
                  ++ [Stmt.callInit g.config.InitFunc,
                      Stmt.returnInstance g.config.ReturnValue]) ∈ decls)
          ∧ ("options".toList ∈ g.config.ConstructorTypes →
              Decl.funcDecl none
                ("New".toList ++ g.config.StructName ++ "WithOptions".toList)
                [Param.mk "opts".toList
                  ("...".toList ++ (g.config.StructName ++ "Option".toList))]
                (resultType g.config)
                ([Stmt.newValue g.config.StructName [], Stmt.applyOptions]
                  ++ [Stmt.callInit g.config.InitFunc,
                      Stmt.returnInstance g.config.ReturnValue]) ∈ decls))
      ∧ (g.config.InitFunc = [] → ∀ d ∈ decls, ∀ m : GoString, Stmt.callInit m ∉ d.body)
      ∧ (∀ m : GoString, renderStmt (Stmt.callInit m) = "\tv.".toList ++ m ++ "()\n".toList) := by
  have hdecls := emit_ok u g decls hemit
  subst hdecls
  refine ⟨?_, fun hinit d hd m => no_callInit u g hinit d hd m, fun _ => rfl⟩
  intro hinit
  have hfin : finishStmts g.config
      = [Stmt.callInit g.config.InitFunc, Stmt.returnInstance g.config.ReturnValue] := by
    simp [finishStmts, hinit]
  refine ⟨?_, ?_, ?_⟩
  · intro hreq
    rw [← hfin]
    unfold Generator.decls
    rw [if_pos hreq]
    refine List.mem_append_left _ (List.mem_append_left _ (List.mem_append_left _ ?_))
    unfold allArgsDecls
    exact List.mem_singleton_self _
  · intro hreq
    rw [← hfin]
    unfold Generator.decls
    rw [if_pos hreq]
    refine List.mem_append_left _ (List.mem_append_left _ (List.mem_append_right _ ?_))
    unfold builderDecls
    exact List.mem_append_right _ (List.mem_singleton_self _)
  · intro hreq
    rw [← hfin]
    unfold Generator.decls
    rw [if_pos hreq]
    refine List.mem_append_left _ (List.mem_append_right _ ?_)
    unfold optionsDecls
    exact List.mem_append_right _ (List.mem_singleton_self _)

/-- Witness of C23 on `TestGenerateWithInitFunc`: the constructor assigns
`name`, calls `initialize` and returns. -/
theorem init_hook_emitted_witness :
    Decl.funcDecl none "NewTestStruct".toList [Param.mk "name".toList "string".toList]
        "*TestStruct".toList
        [Stmt.newValue "TestStruct".toList [("name".toList, "name".toList)],
         Stmt.callInit "initialize".toList, Stmt.returnInstance false]
      ∈ initTestGenerator.decls unicode.asciiTables :=
  ((init_hook_emitted unicode.asciiTables initTestGenerator
      (initTestGenerator.decls unicode.asciiTables) rfl).1 (by decide)).1 (by decide)

/-! ## The command `main` -/

/-- The validation loop finds no invalid element exactly when every element is
one of the three constructor types. -/
theorem firstInvalidType_eq_none (types : List GoString) :
    firstInvalidType types = none
      ↔ ∀ t ∈ types, t ∈ ["allArgs".toList, "builder".toList, "options".toList] := by
  induction types with
  | nil => simp [firstInvalidType]
  | cons t ts ih =>
    unfold firstInvalidType
    split_ifs with h
    · simp only [List.mem_cons, List.mem_singleton, List.not_mem_nil, or_false, forall_eq_or_imp,
        false_iff, not_and]
      intro h'
      rcases h' with h' | h' | h'
      · exact absurd h' h.1
      · exact absurd h' h.2.1
      · exact absurd h' h.2.2
    · rw [ih]
      have ht : t ∈ ["allArgs".toList, "builder".toList, "options".toList] := by
        simp only [List.mem_cons, List.mem_singleton, List.not_mem_nil, or_false]
        by_contra hc
        exact h ⟨fun e => hc (Or.inl e), fun e => hc (Or.inr (Or.inl e)),
          fun e => hc (Or.inr (Or.inr e))⟩
      constructor
      · intro hall x hx
        rcases List.mem_cons.1 hx with rfl | hx
        · exact ht
        · exact hall x hx
      · intro hall x hx
        exact hall x (List.mem_cons_of_mem _ hx)

/-- The element that the validation loop reports is none of the three
constructor types. -/
theorem firstInvalidType_eq_some (types : List GoString) (t : GoString)
    (h : firstInvalidType types = some t) :
    t ∈ types ∧ t ∉ ["allArgs".toList, "builder".toList, "options".toList] := by
  induction types with
  | nil => simp [firstInvalidType] at h
  | cons x xs ih =>
    unfold firstInvalidType at h
    split_ifs at h with hx
    · have hxt : x = t := Option.some.inj h
      subst hxt
      refine ⟨List.mem_cons_self _ _, ?_⟩
      simp only [List.mem_cons, List.mem_singleton, List.not_mem_nil, or_false, not_or]
      exact hx
    · exact ⟨List.mem_cons_of_mem _ (ih h).1, (ih h).2⟩

/-- A run of `main` that reaches code generation has passed every earlier
check, and a run that calls `os.WriteFile` has reached code generation. -/
theorem main_generated (u : unicode.CaseTables) (env : Env) (flags : Flags) :
    (∀ config, (main.main u env flags).generated = some config →
        flags.showVersion = false ∧ flags.typeName ≠ []
          ∧ firstInvalidType (parseConstructorTypes flags.constructorTypes) = none
          ∧ config.StructName = flags.typeName
          ∧ config.ConstructorTypes = parseConstructorTypes flags.constructorTypes)
      ∧ ((main.main u env flags).generated = none → (main.main u env flags).written = none) := by
  by_cases hv : flags.showVersion = true
  · simp [main.main, hv]
  have hv' : flags.showVersion = false := by simpa using hv
  by_cases ht : flags.typeName = []
  · simp [main.main, hv', ht]
  cases h1 : findSourceFile u env flags.typeName with
  | error err => cases err <;> simp [main.main, hv', ht, h1, panicOutcome]
  | ok sourceFile =>
    cases h2 : ParseStruct u env.parseFile sourceFile flags.typeName with
    | error err => cases err <;> simp [main.main, hv', ht, h1, h2, panicOutcome]
    | ok structInfo =>
      cases h3 : firstInvalidType (parseConstructorTypes flags.constructorTypes) with
      | some t => simp [main.main, hv', ht, h1, h2, h3]
      | none =>
        cases h4 : env.generate
            (GeneratorConfig.mk flags.typeName (parseConstructorTypes flags.constructorTypes)
              (if flags.outputFile = [] then
                env.join (env.dir sourceFile)
                  (strings.ToLower u flags.typeName ++ "_gen.go".toList)
              else flags.outputFile)
              flags.initFunc flags.returnValue flags.setterPrefix flags.withGetter)
            structInfo with
        | error err =>
          simp only [main.main, hv', ht, h1, h2, h3, h4, Bool.false_eq_true, if_false,
            Option.some.injEq, reduceCtorEq, false_implies, and_true]
          rintro config rfl
          simp [ht]
        | ok code =>
          cases h5 : env.writeFile
              (if flags.outputFile = [] then
                env.join (env.dir sourceFile)
                  (strings.ToLower u flags.typeName ++ "_gen.go".toList)
              else flags.outputFile) code with
          | some err =>
            simp only [main.main, hv', ht, h1, h2, h3, h4, h5, Bool.false_eq_true, if_false,
              Option.some.injEq, reduceCtorEq, false_implies, and_true]
            rintro config rfl
            simp [ht]
          | none =>
            simp only [main.main, hv', ht, h1, h2, h3, h4, h5, Bool.false_eq_true, if_false,
              Option.some.injEq, reduceCtorEq, false_implies, and_true]
            rintro config rfl
            simp [ht]

/-- The function `Split` returns at least one element. -/
theorem splitAux_ne_nil (sep : Char) (s cur : List Char) : strings.splitAux sep s cur ≠ [] := by
  induction s generalizing cur with
  | nil => simp [strings.splitAux]
  | cons c cs ih =>
    unfold strings.splitAux
    split_ifs
    · exact List.cons_ne_nil _ _
    · exact ih _

/-- A run of `main` in which some constructor type is invalid neither reaches
code generation nor writes. -/
theorem main_invalid_type (u : unicode.CaseTables) (env : Env) (flags : Flags) (t : GoString)
    (h : firstInvalidType (parseConstructorTypes flags.constructorTypes) = some t) :
    (main.main u env flags).generated = none ∧ (main.main u env flags).written = none := by
  have hgen : (main.main u env flags).generated = none := by
    cases hg : (main.main u env flags).generated with
    | none => rfl
    | some config =>
      have := ((main_generated u env flags).1 config hg).2.2.1
      rw [h] at this
      exact Option.noConfusion this
  exact ⟨hgen, (main_generated u env flags).2 hgen⟩

/-- C28, counterexample: with `-constructorTypes=allargs` the element `allargs`
is invalid, yet a run with `-version` prints the version and exits with code
0, a run without `-type` reports the missing flag, and a run for a struct that
the file does not declare reports the parse error; none of them reports an
invalid constructor type. -/
theorem invalid_type_unreported_counterexample :
    firstInvalidType (parseConstructorTypes "allargs".toList) = some "allargs".toList
      ∧ main.main unicode.asciiTables sampleEnv
          (Flags.mk "TestStruct".toList "allargs".toList [] [] false [] false true)
          = Outcome.mk 0 "constructor version 1.0.0\n".toList [] false none none
      ∧ main.main unicode.asciiTables sampleEnv (sampleFlags [] "allargs".toList)
          = Outcome.mk 1 [] "Error: -type flag is mandatory\n\n".toList true none none
      ∧ main.main unicode.asciiTables sampleEnv (sampleFlags "Missing".toList "allargs".toList)
          = Outcome.mk 1 []
              "Error parsing struct: struct Missing not found in file test.go\n".toList
              false none none := by
  refine ⟨by decide, rfl, rfl, rfl⟩

/-- C28, amended: `main` reaches code generation only if every element of
`-constructorTypes` between commas, with its surrounding white space trimmed,
is one of `allArgs`, `builder`, `options`; otherwise the validation finds an
invalid element and `main` neither generates nor writes, and a run that gets
to the validation, that is without `-version`, with a `-type`, with the source
file found and the struct parsed, prints the invalid constructor type and
exits with code 1. The empty string, an empty element and `allargs` are
rejected; repeated valid elements are accepted. -/
theorem constructorTypes_validation (u : unicode.CaseTables) (env : Env) (flags : Flags) :
    ((main.main u env flags).generated.isSome = true →
        ∀ e ∈ strings.Split flags.constructorTypes ',',
          strings.TrimSpace e ∈ ["allArgs".toList, "builder".toList, "options".toList])
      ∧ ((∃ e ∈ strings.Split flags.constructorTypes ',',
            strings.TrimSpace e ∉ ["allArgs".toList, "builder".toList, "options".toList]) →
          (∃ t, firstInvalidType (parseConstructorTypes flags.constructorTypes) = some t
              ∧ t ∈ (strings.Split flags.constructorTypes ',').map strings.TrimSpace
              ∧ t ∉ ["allArgs".toList, "builder".toList, "options".toList])
            ∧ (main.main u env flags).generated = none
            ∧ (main.main u env flags).written = none)
      ∧ (∀ (sourceFile : GoString) (structInfo : StructInfo) (t : GoString),
          flags.showVersion = false → flags.typeName ≠ [] →
          findSourceFile u env flags.typeName = Except.ok sourceFile →
          ParseStruct u env.parseFile sourceFile flags.typeName = Except.ok structInfo →
          firstInvalidType (parseConstructorTypes flags.constructorTypes) = some t →
            (main.main u env flags).exitCode = 1
              ∧ (main.main u env flags).stderr
                  = "Error: invalid constructor type '".toList ++ t
                      ++ "'. Valid types: allArgs, builder, options\n".toList
              ∧ (main.main u env flags).generated = none
              ∧ (main.main u env flags).written = none)
      ∧ firstInvalidType (parseConstructorTypes []) = some []
      ∧ firstInvalidType (parseConstructorTypes "allArgs,".toList) = some []
      ∧ firstInvalidType (parseConstructorTypes "allArgs,,builder".toList) = some []
      ∧ firstInvalidType (parseConstructorTypes "allargs".toList) = some "allargs".toList
      ∧ firstInvalidType (parseConstructorTypes "allArgs,allArgs".toList) = none
      ∧ firstInvalidType (parseConstructorTypes " allArgs, builder ,options".toList) = none := by
  refine ⟨?_, ?_, ?_, by decide, by decide, by decide, by decide, by decide, by decide⟩
  · intro hsome e he
    obtain ⟨config, hconfig⟩ := Option.isSome_iff_exists.1 hsome
    have hnone := ((main_generated u env flags).1 config hconfig).2.2.1
    exact (firstInvalidType_eq_none _).1 hnone _ (List.mem_map_of_mem _ he)
  · rintro ⟨e, he, hbad⟩
    cases hinv : firstInvalidType (parseConstructorTypes flags.constructorTypes) with
    | none =>
      exact absurd ((firstInvalidType_eq_none _).1 hinv _ (List.mem_map_of_mem _ he)) hbad
    | some t =>
      have ht := firstInvalidType_eq_some _ t hinv
      exact ⟨⟨t, rfl, ht.1, ht.2⟩, main_invalid_type u env flags t hinv⟩
  · intro sourceFile structInfo t hv ht h1 h2 h3
    simp [main.main, hv, ht, h1, h2, h3]

/-- Witness of the amended C28 on `-type=TestStruct -constructorTypes=allargs`. -/
theorem constructorTypes_validation_witness :
    (main.main unicode.asciiTables sampleEnv
        (sampleFlags "TestStruct".toList "allargs".toList)).stderr
      = "Error: invalid constructor type 'allargs'. Valid types: allArgs, builder, options\n".toList :=
  ((constructorTypes_validation unicode.asciiTables sampleEnv
      (sampleFlags "TestStruct".toList "allargs".toList)).2.2.1
    "test.go".toList
    (StructInfo.mk "TestStruct".toList
      [FieldInfo.mk "name".toList "string".toList [] false false false false,
       FieldInfo.mk "alias".toList "string".toList [] false false false false,
       FieldInfo.mk "age".toList "int".toList (rawTag "json:\"age\"".toList)
         false false false false,
       FieldInfo.mk "*sync.Mutex".toList "*sync.Mutex".toList [] true false false false]
      "test".toList)
    "allargs".toList rfl (by decide) rfl rfl (by decide)).2.1

/-- C24: `Generate` fails, with an error and no text, when the type name is
empty and when no pattern is requested; and `main` rejects both before code
generation: with an empty `-type` it prints that the flag is mandatory and
exits with code 1, with an empty `-constructorTypes` it neither generates nor
writes, and the configuration it hands to the generator has a type name and at
least one pattern. -/
theorem generation_config_errors (u : unicode.CaseTables) (g : Generator) (env : Env)
    (flags : Flags) :
    (g.config.StructName = [] → ∃ err, g.emit u = Except.error err
        ∧ g.Generate u = Except.error err)
      ∧ (g.config.ConstructorTypes = [] → ∃ err, g.emit u = Except.error err
          ∧ g.Generate u = Except.error err)
      ∧ (flags.typeName = [] →
          (main.main u env flags).generated = none ∧ (main.main u env flags).written = none)
      ∧ (flags.typeName = [] → flags.showVersion = false →
          (main.main u env flags).exitCode = 1
            ∧ (main.main u env flags).stderr = "Error: -type flag is mandatory\n\n".toList)
      ∧ (flags.constructorTypes = [] →
          (main.main u env flags).generated = none ∧ (main.main u env flags).written = none)
      ∧ (∀ config, (main.main u env flags).generated = some config →
          config.StructName ≠ [] ∧ config.ConstructorTypes ≠ []) := by
  refine ⟨?_, ?_, ?_, ?_, ?_, ?_⟩
  · intro h
    exact ⟨"struct name is empty".toList, by simp [Generator.emit, h],
      by simp [Generator.Generate, Generator.emit, h]⟩
  · intro h
    by_cases hn : g.config.StructName = []
    · exact ⟨"struct name is empty".toList, by simp [Generator.emit, hn],
        by simp [Generator.Generate, Generator.emit, hn]⟩
    · exact ⟨"no constructor type requested".toList, by simp [Generator.emit, hn, h],
        by simp [Generator.Generate, Generator.emit, hn, h]⟩
  · intro h
    have hgen : (main.main u env flags).generated = none := by
      cases hg : (main.main u env flags).generated with
      | none => rfl
      | some config => exact absurd h ((main_generated u env flags).1 config hg).2.1
    exact ⟨hgen, (main_generated u env flags).2 hgen⟩
  · intro h hv
    simp [main.main, h, hv]
  · intro h
    exact main_invalid_type u env flags [] (by rw [h]; decide)
  · intro config hconfig
    obtain ⟨_, ht, _, hname, htypes⟩ := (main_generated u env flags).1 config hconfig
    refine ⟨by rw [hname]; exact ht, ?_⟩
    rw [htypes]
    unfold parseConstructorTypes strings.Split
    intro hnil
    exact splitAux_ne_nil _ _ _ (List.map_eq_nil_iff.1 hnil)

/-- Witness of C24 on a configuration with an empty type name and on a run of
`main` without `-type`. -/
theorem generation_config_errors_witness :
    (∃ err, unnamedTestGenerator.Generate unicode.asciiTables = Except.error err)
      ∧ (main.main unicode.asciiTables sampleEnv (sampleFlags [] "allArgs".toList)).exitCode = 1 := by
  obtain ⟨err, _, h⟩ :=
    (generation_config_errors unicode.asciiTables unnamedTestGenerator sampleEnv
      (sampleFlags [] "allArgs".toList)).1 rfl
  exact ⟨⟨err, h⟩,
    ((generation_config_errors unicode.asciiTables unnamedTestGenerator sampleEnv
      (sampleFlags [] "allArgs".toList)).2.2.2.1 rfl rfl).1⟩
